import Mathlib

/-!
# The user-interaction broker of `src/interface/interaction.c`

A shallow embedding of the dialog queue of `interaction.c` and of the
functions working on it.

Conventions of the embedding.

* Dialog objects live on a heap, a list of `interaction_dialog_t` values; a
  dialog pointer is an index into it.  The queue `pp_dialogs` is a list of such
  pointers, so one object may occur in the queue several times; the count
  `i_dialogs` is the length of that list (`INSERT_ELEM` keeps both in step).
* A function whose C execution would dereference `NULL` or a pointer to no
  object returns `none`.
* `int` values are unbounded integers: signed overflow is undefined in C and
  stays outside of the model.  Where the width of the counter matters, the
  variants `assignId_int32`, `__intf_Interact_int32` and `interactSeq_int32`
  compute `++p_interaction->i_last_id` as the compiled code does, on a 32-bit
  `int` that wraps from `INT_MAX` to `INT_MIN`.
* `var_Set( p_intf, "interaction", val )` is an output: it appends a
  `Delivery` to the log of the tick, holding the interface, the address in
  `val.p_address` and the contents of the dialog at that moment.
* What the external collaborators answer is an argument: `p_list` is the
  result of `vlc_list_find`, `b_create` tells whether `vlc_object_create`
  succeeds, `mem` is the content of a block returned by `malloc`.
* Calls are sequential: a `Call` is one producer allocation or one call of an
  entry point, and `runCalls` runs a list of them one after the other.
-/

namespace Interaction

/-! ## Data model -/

/-- Values of `i_status`, the six states named in `interaction.c`. -/
inductive DialogStatus where
  | NEW_DIALOG
  | SENT_DIALOG
  | UPDATED_DIALOG
  | ANSWERED_DIALOG
  | HIDING_DIALOG
  | HIDDEN_DIALOG
  deriving DecidableEq, Repr

/-- Values of `i_action`, the three requests `intf_InteractionManage` sends. -/
inductive DialogAction where
  | INTERACT_NEW
  | INTERACT_UPDATE
  | INTERACT_HIDE
  deriving DecidableEq, Repr

/-- Modelled from the spec: the dialog kinds of the absent `vlc_interaction.h`
(the spec lists Notify, Fatal, Error, Warning, Ask, Progress); the source names
`INTERACT_ASK` and `INTERACT_FATAL`. -/
inductive DialogType where
  | INTERACT_NOTIFY
  | INTERACT_FATAL
  | INTERACT_ERROR
  | INTERACT_WARNING
  | INTERACT_ASK
  | INTERACT_PROGRESS
  deriving DecidableEq, Repr

/-- Modelled from the spec: the widget kinds of the absent `vlc_interaction.h`
(the spec lists Text, ProgressBar, InputField, ButtonSet); the source names
`WIDGET_TEXT`. -/
inductive WidgetType where
  | WIDGET_TEXT
  | WIDGET_PROGRESS
  | WIDGET_INPUT
  | WIDGET_BUTTONS
  deriving DecidableEq, Repr

/-- The fields of `user_widget_t` that `interaction.c` touches. -/
structure user_widget_t where
  i_type : WidgetType
  psz_text : String
  deriving DecidableEq, Repr

/-- The fields of `interaction_dialog_t` that `interaction.c` touches;
`i_widgets` is the length of `pp_widgets`. -/
structure interaction_dialog_t where
  i_id : Int
  i_type : DialogType
  psz_title : Option String
  psz_description : Option String
  pp_widgets : List user_widget_t
  b_reusable : Bool
  i_status : DialogStatus
  i_action : DialogAction
  deriving DecidableEq, Repr

/-- The fields of `intf_thread_t` that `interaction.c` touches. -/
structure intf_thread_t where
  i_object_id : Int
  b_interaction : Bool
  deriving DecidableEq, Repr

/-- The registry `interaction_t`: the queue of dialog pointers, the bound
interface and the id counter. -/
structure interaction_t where
  pp_dialogs : List Nat
  p_intf : Option intf_thread_t
  i_last_id : Int
  deriving DecidableEq, Repr

/-- The count `i_dialogs` of the registry. -/
def interaction_t.i_dialogs (p_interaction : interaction_t) : Nat :=
  p_interaction.pp_dialogs.length

/-- The field of `playlist_t` that `interaction.c` touches. -/
structure playlist_t where
  p_interaction : Option interaction_t
  deriving DecidableEq, Repr

/-- The dialog heap: the object at address `p` is the `p`-th entry. -/
abbrev Heap := List interaction_dialog_t

/-- One call `var_Set( p_intf, "interaction", val )`: the interface, the
address `val.p_address` and the dialog as it is at the time of the call. -/
structure Delivery where
  p_intf : intf_thread_t
  p_address : Nat
  dialog : interaction_dialog_t
  deriving DecidableEq, Repr

/-- The memory the broker works on: the dialog heap and the playlist object
that `vlc_object_find` yields for the caller (`none` when it finds none). -/
structure World where
  heap : Heap
  p_playlist : Option playlist_t
  deriving DecidableEq, Repr

/-- Modelled from the spec: the constant `VLC_SUCCESS` of the absent VLC
headers, the return code of a successful call. -/
def VLC_SUCCESS : Int := 0

/-- Modelled from the spec: the macro `INSERT_ELEM( p_ar, i_oldsize, i_pos, elem )`
of the absent VLC headers, which grows the array by one and puts `elem` at
position `i_pos`; the queue is an ordered sequence in insertion order. -/
def INSERT_ELEM {α : Type} (p_ar : List α) (i_pos : Nat) (elem : α) : List α :=
  p_ar.take i_pos ++ elem :: p_ar.drop i_pos

/-! ## Interface resolution -/

/-- The scan of `intf_InteractionSearchInterface`: the first interface of the
list with `b_interaction` set replaces the binding and ends the loop. -/
def searchLoop : List intf_thread_t → Option intf_thread_t → Option intf_thread_t
  | [], bound => bound
  | p_intf :: rest, bound =>
    if p_intf.b_interaction then some p_intf else searchLoop rest bound

/-- Embedding of `intf_InteractionSearchInterface`; `p_list` is what
`vlc_list_find` returns. -/
def intf_InteractionSearchInterface (p_list : Option (List intf_thread_t))
    (p_interaction : interaction_t) : interaction_t :=
  let cleared := { p_interaction with p_intf := none }
  match p_list with
  | none => cleared
  | some l => { cleared with p_intf := searchLoop l cleared.p_intf }

/-! ## The manage loop -/

/-- The body of the `switch` of `intf_InteractionManage` for the dialog `d` at
address `p`: the dialog as the case leaves it, and the delivery it makes. -/
def manageDialog (p_intf : intf_thread_t) (p : Nat) (d : interaction_dialog_t) :
    interaction_dialog_t × List Delivery :=
  match d.i_status with
  | .ANSWERED_DIALOG =>
    let d1 := { d with i_action := .INTERACT_HIDE }
    ({ d1 with i_status := .HIDING_DIALOG }, [⟨p_intf, p, d1⟩])
  | .UPDATED_DIALOG =>
    let d1 := { d with i_action := .INTERACT_UPDATE }
    ({ d1 with i_status := .SENT_DIALOG }, [⟨p_intf, p, d1⟩])
  | .HIDDEN_DIALOG => (d, [])
  | .NEW_DIALOG =>
    let d1 := { d with i_action := .INTERACT_NEW }
    ({ d1 with i_status := .SENT_DIALOG }, [⟨p_intf, p, d1⟩])
  | .SENT_DIALOG => (d, [])
  | .HIDING_DIALOG => (d, [])

/-- The `for` loop of `intf_InteractionManage` over the queue entries that
remain, threading the heap and the deliveries made so far. -/
def manageLoop (p_intf : intf_thread_t) :
    List Nat → Heap → List Delivery → Option (Heap × List Delivery)
  | [], heap, log => some (heap, log)
  | p :: rest, heap, log =>
    match heap[p]? with
    | none => none
    | some d =>
      manageLoop p_intf rest (heap.set p (manageDialog p_intf p d).1)
        (log ++ (manageDialog p_intf p d).2)

/-- Embedding of `intf_InteractionManage( p_playlist )`: the heap and the
playlist after the call and the deliveries made, in order. -/
def intf_InteractionManage (p_list : Option (List intf_thread_t)) (heap : Heap)
    (p_playlist : playlist_t) : Option (Heap × playlist_t × List Delivery) :=
  match p_playlist.p_interaction with
  | none => none
  | some p_interaction =>
    if p_interaction.i_dialogs = 0 then some (heap, p_playlist, [])
    else
      let searched := intf_InteractionSearchInterface p_list p_interaction
      match searched.p_intf with
      | none => some (heap, { p_playlist with p_interaction := some searched }, [])
      | some p_intf =>
        match manageLoop p_intf searched.pp_dialogs heap [] with
        | none => none
        | some (heap1, log) =>
          some (heap1, { p_playlist with p_interaction := some searched }, log)

/-! ## Locating the registry -/

/-- Embedding of `intf_InteractionInit( p_playlist )`; the constant
`DIALOG_LAST_PREDEFINED` of the absent header is an argument, and `b_create`
tells whether `vlc_object_create` returns an object. -/
def intf_InteractionInit (DIALOG_LAST_PREDEFINED : Int) (b_create : Bool)
    (p_playlist : playlist_t) : playlist_t :=
  if b_create then
    { p_playlist with
        p_interaction := some
          { pp_dialogs := [], p_intf := none, i_last_id := DIALOG_LAST_PREDEFINED + 1 } }
  else p_playlist

/-- Embedding of `intf_InteractionGet( p_this )`: the memory after the call and
the registry returned, `none` for `NULL`. -/
def intf_InteractionGet (DIALOG_LAST_PREDEFINED : Int) (b_create : Bool) (w : World) :
    World × Option interaction_t :=
  match w.p_playlist with
  | none => (w, none)
  | some p_playlist =>
    let p_playlist1 :=
      if p_playlist.p_interaction = none then
        intf_InteractionInit DIALOG_LAST_PREDEFINED b_create p_playlist
      else p_playlist
    ({ w with p_playlist := some p_playlist1 }, p_playlist1.p_interaction)

/-- The registry of the playlist of `w`, if both exist. -/
def World.registry (w : World) : Option interaction_t :=
  match w.p_playlist with
  | none => none
  | some p_playlist => p_playlist.p_interaction

/-- A write through the registry pointer: the registry of `w` becomes `r`. -/
def World.setInteraction (w : World) (r : interaction_t) : World :=
  { w with p_playlist := w.p_playlist.map (fun pl => { pl with p_interaction := some r }) }

/-- A write through a dialog pointer: `f` applied to the object at `p`;
`none` when `p` points to no object. -/
def heapUpdate (heap : Heap) (p : Nat) (f : interaction_dialog_t → interaction_dialog_t) :
    Option Heap :=
  match heap[p]? with
  | none => none
  | some d => some (heap.set p (f d))

/-! ## Submitting a dialog -/

/-- Embedding of `intf_WaitAnswer`: the stub returns `VLC_SUCCESS` and touches
neither the registry nor the dialog. -/
def intf_WaitAnswer (_p_interact : Option interaction_t) (_p_dialog : Nat) : Int :=
  VLC_SUCCESS

/-- Embedding of `intf_Send`: the pointer is inserted at position `i_dialogs`. -/
def intf_Send (p_interact : interaction_t) (p_dialog : Nat) : interaction_t × Int :=
  ({ p_interact with
      pp_dialogs := INSERT_ELEM p_interact.pp_dialogs p_interact.i_dialogs p_dialog },
   VLC_SUCCESS)

/-- Lines 69-73 of `__intf_Interact`: a dialog with id 0 gets
`++p_interaction->i_last_id`.  The result is the memory, the registry pointer
and the dialog after the step. -/
def assignId (w : World) (p_interaction : Option interaction_t) (p_dialog : Nat)
    (d : interaction_dialog_t) :
    Option (World × Option interaction_t × interaction_dialog_t) :=
  if d.i_id = 0 then
    match p_interaction with
    | none => none
    | some r =>
      let r1 := { r with i_last_id := r.i_last_id + 1 }
      let d1 := { d with i_id := r1.i_last_id }
      some ({ w.setInteraction r1 with heap := w.heap.set p_dialog d1 }, some r1, d1)
  else some (w, p_interaction, d)

/-- Embedding of `__intf_Interact( p_this, p_dialog )`: the memory after the
call and the value returned. -/
def __intf_Interact (DIALOG_LAST_PREDEFINED : Int) (b_create : Bool) (w : World)
    (p_dialog : Nat) : Option (World × Int) :=
  let got := intf_InteractionGet DIALOG_LAST_PREDEFINED b_create w
  match got.1.heap[p_dialog]? with
  | none => none
  | some d =>
    match assignId got.1 got.2 p_dialog d with
    | none => none
    | some (w2, p_interaction, d2) =>
      if d2.i_type = .INTERACT_ASK then
        some (w2, intf_WaitAnswer p_interaction p_dialog)
      else
        match p_interaction with
        | none => none
        | some r => some (w2.setInteraction (intf_Send r p_dialog).1, (intf_Send r p_dialog).2)

/-! ## The fatal-message helper -/

/-- The loop of `intf_InteractionGetById` over the queue entries that remain:
the first pointer whose object has the id, `some none` for `NULL`. -/
def getByIdLoop (heap : Heap) (i_id : Int) : List Nat → Option (Option Nat)
  | [] => some none
  | p :: rest =>
    match heap[p]? with
    | none => none
    | some d => if d.i_id = i_id then some (some p) else getByIdLoop heap i_id rest

/-- Embedding of `intf_InteractionGetById( p_this, i_id )`. -/
def intf_InteractionGetById (DIALOG_LAST_PREDEFINED : Int) (b_create : Bool) (w : World)
    (i_id : Int) : Option (World × Option Nat) :=
  let got := intf_InteractionGet DIALOG_LAST_PREDEFINED b_create w
  match got.2 with
  | none => none
  | some p_interaction =>
    match getByIdLoop got.1.heap i_id p_interaction.pp_dialogs with
    | none => none
    | some found => some (got.1, found)

/-- The macro `INTERACT_INIT( new )` on a block of content `mem`: the fields it
sets; the others keep what the block held. -/
def INTERACT_INIT (mem : interaction_dialog_t) : interaction_dialog_t :=
  { mem with
      pp_widgets := [], psz_title := none, psz_description := none,
      i_id := 0, i_status := .NEW_DIALOG }

/-- Lines 204-232 of `__intf_UserFatal`: the dialog is looked up or built and
gets type, title and text widget.  The result is the memory and the pointer
`p_new` handed to `intf_Interact`; `psz_text` is the formatted message. -/
def userFatalDialog (DIALOG_LAST_PREDEFINED : Int) (b_create : Bool)
    (mem : interaction_dialog_t) (w : World) (i_id : Int) (psz_title psz_text : String) :
    Option (World × Nat) :=
  let looked : Option (World × Option Nat) :=
    if i_id > 0 then intf_InteractionGetById DIALOG_LAST_PREDEFINED b_create w i_id
    else some (w, none)
  match looked with
  | none => none
  | some (w1, p_new) =>
    let placed : Option (Heap × Nat) :=
      match p_new with
      | none =>
        some (w1.heap ++
                [if i_id > 0 then { INTERACT_INIT mem with i_id := i_id }
                 else INTERACT_INIT mem],
              w1.heap.length)
      | some p =>
        match heapUpdate w1.heap p (fun d => { d with i_status := .UPDATED_DIALOG }) with
        | none => none
        | some heap1 => some (heap1, p)
    match placed with
    | none => none
    | some (heap2, p) =>
      match heapUpdate heap2 p (fun d =>
          { d with
              i_type := .INTERACT_FATAL, psz_title := some psz_title,
              pp_widgets :=
                INSERT_ELEM d.pp_widgets d.pp_widgets.length ⟨.WIDGET_TEXT, psz_text⟩ }) with
      | none => none
      | some heap3 => some ({ w1 with heap := heap3 }, p)

/-- Embedding of `__intf_UserFatal( p_this, i_id, psz_title, psz_format, ... )`;
the value `intf_Interact` returns is dropped. -/
def __intf_UserFatal (DIALOG_LAST_PREDEFINED : Int) (b_create : Bool)
    (mem : interaction_dialog_t) (w : World) (i_id : Int) (psz_title psz_text : String) :
    Option World :=
  match userFatalDialog DIALOG_LAST_PREDEFINED b_create mem w i_id psz_title psz_text with
  | none => none
  | some (w1, p_new) =>
    match __intf_Interact DIALOG_LAST_PREDEFINED b_create w1 p_new with
    | none => none
    | some (w2, _) => some w2

/-! ## Sequences of calls -/

/-- One step of a client of the broker: a producer allocating a dialog object,
or a call of one of the three entry points. -/
inductive Call where
  | alloc (d : interaction_dialog_t)
  | interact (b_create : Bool) (p_dialog : Nat)
  | userFatal (b_create : Bool) (mem : interaction_dialog_t) (i_id : Int)
      (psz_title psz_text : String)
  | manage (p_list : Option (List intf_thread_t))

/-- The memory after one step. -/
def stepCall (DIALOG_LAST_PREDEFINED : Int) (w : World) : Call → Option World
  | .alloc d => some { w with heap := w.heap ++ [d] }
  | .interact b_create p_dialog =>
    match __intf_Interact DIALOG_LAST_PREDEFINED b_create w p_dialog with
    | none => none
    | some (w1, _) => some w1
  | .userFatal b_create mem i_id psz_title psz_text =>
    __intf_UserFatal DIALOG_LAST_PREDEFINED b_create mem w i_id psz_title psz_text
  | .manage p_list =>
    match w.p_playlist with
    | none => none
    | some p_playlist =>
      match intf_InteractionManage p_list w.heap p_playlist with
      | none => none
      | some (heap1, p_playlist1, _) => some { heap := heap1, p_playlist := some p_playlist1 }

/-- The memory after a sequence of steps. -/
def runCalls (DIALOG_LAST_PREDEFINED : Int) : World → List Call → Option World
  | w, [] => some w
  | w, c :: rest =>
    match stepCall DIALOG_LAST_PREDEFINED w c with
    | none => none
    | some w1 => runCalls DIALOG_LAST_PREDEFINED w1 rest

/-- The pointer argument of a step points to an object of the heap. -/
def Call.valid (w : World) : Call → Prop
  | .interact _ p_dialog => p_dialog < w.heap.length
  | _ => True

instance (w : World) (c : Call) : Decidable (c.valid w) := by
  cases c <;> simp only [Call.valid] <;> infer_instance

/-- A playlist whose registry `intf_InteractionInit` has just created, with the
dialog objects `heap` of the producers. -/
def freshWorld (DIALOG_LAST_PREDEFINED : Int) (heap : Heap) : World :=
  { heap := heap
    p_playlist :=
      some (intf_InteractionInit DIALOG_LAST_PREDEFINED true { p_interaction := none }) }

/-- Calls of `__intf_Interact` on the pointers in turn: the memory at the end
and, for each call, the id of the dialog before and after it. -/
def interactSeq (DIALOG_LAST_PREDEFINED : Int) (b_create : Bool) :
    World → List Nat → Option (World × List (Int × Int))
  | w, [] => some (w, [])
  | w, p :: rest =>
    match w.heap[p]? with
    | none => none
    | some d =>
      match __intf_Interact DIALOG_LAST_PREDEFINED b_create w p with
      | none => none
      | some (w1, _) =>
        match w1.heap[p]? with
        | none => none
        | some d1 =>
          match interactSeq DIALOG_LAST_PREDEFINED b_create w1 rest with
          | none => none
          | some (w2, tr) => some (w2, (d.i_id, d1.i_id) :: tr)

/-- The ids of the queue entries of `w`, in queue order (`none` for an entry
pointing to no object). -/
def queueIds (w : World) : List (Option Int) :=
  match w.registry with
  | none => []
  | some r => r.pp_dialogs.map (fun p => (w.heap[p]?).map (fun d => d.i_id))

/-! ## The counter as a 32-bit `int` -/

/-- The largest value of a 32-bit `int`. -/
def INT_MAX : Int := 2147483647

/-- The smallest value of a 32-bit `int`. -/
def INT_MIN : Int := -2147483648

/-- The value a 32-bit `int` holds when the exact result of a computation is
`x`: the representative of `x` modulo `2^32` between `INT_MIN` and `INT_MAX`. -/
def wrapInt32 (x : Int) : Int :=
  (x + 2147483648) % 4294967296 - 2147483648

/-- Lines 69-73 of `__intf_Interact` with `i_last_id` a 32-bit `int`: a dialog
with id 0 gets `++p_interaction->i_last_id`, computed modulo `2^32`. -/
def assignId_int32 (w : World) (p_interaction : Option interaction_t) (p_dialog : Nat)
    (d : interaction_dialog_t) :
    Option (World × Option interaction_t × interaction_dialog_t) :=
  if d.i_id = 0 then
    match p_interaction with
    | none => none
    | some r =>
      let r1 := { r with i_last_id := wrapInt32 (r.i_last_id + 1) }
      let d1 := { d with i_id := r1.i_last_id }
      some ({ w.setInteraction r1 with heap := w.heap.set p_dialog d1 }, some r1, d1)
  else some (w, p_interaction, d)

/-- Embedding of `__intf_Interact( p_this, p_dialog )` with `i_last_id` a 32-bit
`int`: as `__intf_Interact`, the id coming from `assignId_int32`. -/
def __intf_Interact_int32 (DIALOG_LAST_PREDEFINED : Int) (b_create : Bool) (w : World)
    (p_dialog : Nat) : Option (World × Int) :=
  let got := intf_InteractionGet DIALOG_LAST_PREDEFINED b_create w
  match got.1.heap[p_dialog]? with
  | none => none
  | some d =>
    match assignId_int32 got.1 got.2 p_dialog d with
    | none => none
    | some (w2, p_interaction, d2) =>
      if d2.i_type = .INTERACT_ASK then
        some (w2, intf_WaitAnswer p_interaction p_dialog)
      else
        match p_interaction with
        | none => none
        | some r => some (w2.setInteraction (intf_Send r p_dialog).1, (intf_Send r p_dialog).2)

/-- Calls of `__intf_Interact_int32` on the pointers in turn: the memory at the
end and, for each call, the id of the dialog before and after it. -/
def interactSeq_int32 (DIALOG_LAST_PREDEFINED : Int) (b_create : Bool) :
    World → List Nat → Option (World × List (Int × Int))
  | w, [] => some (w, [])
  | w, p :: rest =>
    match w.heap[p]? with
    | none => none
    | some d =>
      match __intf_Interact_int32 DIALOG_LAST_PREDEFINED b_create w p with
      | none => none
      | some (w1, _) =>
        match w1.heap[p]? with
        | none => none
        | some d1 =>
          match interactSeq_int32 DIALOG_LAST_PREDEFINED b_create w1 rest with
          | none => none
          | some (w2, tr) => some (w2, (d.i_id, d1.i_id) :: tr)

/-- Two dialogs of id 0 and a registry whose counter is `INT_MAX - 1`. -/
def nearOverflowWorld : World :=
  { heap := [{ i_id := 0, i_type := .INTERACT_FATAL, psz_title := none, psz_description := none,
                 pp_widgets := [], b_reusable := false, i_status := .NEW_DIALOG,
                 i_action := .INTERACT_NEW },
               { i_id := 0, i_type := .INTERACT_WARNING, psz_title := none,
                 psz_description := none, pp_widgets := [], b_reusable := false,
                 i_status := .NEW_DIALOG, i_action := .INTERACT_NEW }]
    p_playlist :=
      some { p_interaction :=
               some { pp_dialogs := [], p_intf := none, i_last_id := 2147483646 } } }

/-! ## Sample data -/

/-- A dialog without title and widgets, with last action `INTERACT_NEW`. -/
def sampleDialog (i_id : Int) (i_type : DialogType) (i_status : DialogStatus)
    (b_reusable : Bool) : interaction_dialog_t :=
  { i_id := i_id, i_type := i_type, psz_title := none, psz_description := none,
    pp_widgets := [], b_reusable := b_reusable, i_status := i_status,
    i_action := .INTERACT_NEW }

/-- An interface that takes interaction requests. -/
def sampleIntf : intf_thread_t := { i_object_id := 7, b_interaction := true }

/-- An interface that takes no interaction requests. -/
def plainIntf : intf_thread_t := { i_object_id := 8, b_interaction := false }

/-- A playlist whose registry has the queue `q`, no bound interface and the
counter `i_last_id`. -/
def samplePlaylist (q : List Nat) (i_last_id : Int) : playlist_t :=
  { p_interaction := some { pp_dialogs := q, p_intf := none, i_last_id := i_last_id } }

/-- A run of four steps on a fresh registry: a producer allocates a warning
dialog and submits it, a fatal message is sent, one tick follows. -/
def sampleCalls : List Call :=
  [.alloc (sampleDialog 0 .INTERACT_WARNING .NEW_DIALOG false),
   .interact true 0,
   .userFatal true (sampleDialog 0 .INTERACT_NOTIFY .NEW_DIALOG false) 0 "Error" "disk full",
   .manage (some [sampleIntf])]

/-- The memory `sampleCalls` ends in when `DIALOG_LAST_PREDEFINED` is 4. -/
def sampleCallsEnd : World :=
  { heap :=
      [sampleDialog 6 .INTERACT_WARNING .SENT_DIALOG false,
       { sampleDialog 7 .INTERACT_FATAL .SENT_DIALOG false with
           psz_title := some "Error"
           pp_widgets := [{ i_type := .WIDGET_TEXT, psz_text := "disk full" }] }]
    p_playlist :=
      some { p_interaction :=
               some { pp_dialogs := [0, 1], p_intf := some sampleIntf, i_last_id := 7 } } }

/-- The deliveries of a log whose address `val.p_address` is `a`. -/
def deliveriesFor (a : Nat) (log : List Delivery) : List Delivery :=
  log.filter (fun e => e.p_address = a)

/-- What one tick delivers for the object at address `a` of the heap the tick
starts on, when `a` is queued. -/
def tickDeliveries (p_intf : intf_thread_t) (heap : Heap) (a : Nat) : List Delivery :=
  match heap[a]? with
  | none => []
  | some d => (manageDialog p_intf a d).2

/-- No queue entry of `w` dangles and none points to a dialog of id 0. -/
def QueueIdsNonzero (w : World) : Prop :=
  ∀ x ∈ queueIds w, x ≠ none ∧ x ≠ some 0

instance (w : World) : Decidable (QueueIdsNonzero w) := by
  unfold QueueIdsNonzero
  infer_instance

/-- The objects of `heap` whose id is not 0 are objects of `heap1` still, with
an id that is not 0. -/
@[reducible]
def KeepsIds (heap heap1 : Heap) : Prop :=
  ∀ (a : Nat) (d : interaction_dialog_t), heap[a]? = some d → d.i_id ≠ 0 →
    ∃ d1 : interaction_dialog_t, heap1[a]? = some d1 ∧ d1.i_id ≠ 0

/-- The registry of `w` exists, its counter is positive and every queue entry
points to a dialog whose id is not 0. -/
def BrokerInv (w : World) : Prop :=
  ∃ r, w.registry = some r ∧ 1 ≤ r.i_last_id ∧
    ∀ p ∈ r.pp_dialogs, ∃ d, w.heap[p]? = some d ∧ d.i_id ≠ 0

/-- The registry of `w` exists, its counter is at least
`DIALOG_LAST_PREDEFINED + 1` and every queue entry points to an object. -/
def CounterInv (DIALOG_LAST_PREDEFINED : Int) (w : World) : Prop :=
  ∃ r, w.registry = some r ∧ DIALOG_LAST_PREDEFINED + 1 ≤ r.i_last_id ∧
    ∀ p ∈ r.pp_dialogs, p < w.heap.length

/-- The memory after one `__intf_UserFatal( p_this, 2, "Error", "disk full" )`
on a fresh registry, when `DIALOG_LAST_PREDEFINED` is 4. -/
def fatalOnceWorld : World :=
  { heap :=
      [{ sampleDialog 2 .INTERACT_FATAL .NEW_DIALOG false with
           psz_title := some "Error"
           pp_widgets := [{ i_type := .WIDGET_TEXT, psz_text := "disk full" }] }]
    p_playlist := some (samplePlaylist [0] 5) }

/-- A playlist that has no registry yet, and an empty heap. -/
def lazyWorld : World :=
  { heap := [], p_playlist := some { p_interaction := none } }

/-! ## Lemmas on the manage loop -/

theorem manageDialog_again_fst (p_intf : intf_thread_t) (p : Nat) (d : interaction_dialog_t) :
    (manageDialog p_intf p (manageDialog p_intf p d).1).1 = (manageDialog p_intf p d).1 := by
  rcases d with ⟨i, t, ti, de, w, r, s, a⟩
  cases s <;> rfl

theorem manageDialog_again_snd (p_intf : intf_thread_t) (p : Nat) (d : interaction_dialog_t) :
    (manageDialog p_intf p (manageDialog p_intf p d).1).2 = [] := by
  rcases d with ⟨i, t, ti, de, w, r, s, a⟩
  cases s <;> rfl

theorem deliveriesFor_manageDialog (p_intf : intf_thread_t) (a p : Nat)
    (d : interaction_dialog_t) :
    deliveriesFor a (manageDialog p_intf p d).2
      = if a = p then (manageDialog p_intf p d).2 else [] := by
  rcases d with ⟨i, t, ti, de, w, r, s, ac⟩
  by_cases h : a = p
  · subst h
    cases s <;> simp [deliveriesFor, manageDialog]
  · have h' : ¬ p = a := fun e => h e.symm
    cases s <;> simp [deliveriesFor, manageDialog, h, h']

theorem deliveriesFor_append (a : Nat) (l₁ l₂ : List Delivery) :
    deliveriesFor a (l₁ ++ l₂) = deliveriesFor a l₁ ++ deliveriesFor a l₂ := by
  simp [deliveriesFor]

/-- The loop on a queue of valid pointers ends; it keeps the size of the heap,
rewrites exactly the queued objects, each by one application of the `switch`,
and delivers for each of them what the `switch` delivers on its initial
contents, however often the object is queued. -/
theorem manageLoop_spec (p_intf : intf_thread_t) :
    ∀ (q : List Nat) (heap : Heap) (log : List Delivery),
      (∀ p ∈ q, p < heap.length) →
      ∃ heap1 log1, manageLoop p_intf q heap log = some (heap1, log1) ∧
        heap1.length = heap.length ∧
        ∀ a, heap1[a]? = (if a ∈ q then
                (heap[a]?).map (fun d => (manageDialog p_intf a d).1) else heap[a]?) ∧
             deliveriesFor a log1 = deliveriesFor a log ++
                (if a ∈ q then tickDeliveries p_intf heap a else []) := by
  intro q
  induction q with
  | nil =>
    intro heap log _
    exact ⟨heap, log, rfl, rfl, fun a => by simp⟩
  | cons p rest ih =>
    intro heap log hwf
    have hp : p < heap.length := hwf p (List.mem_cons_self _ _)
    have hget : heap[p]? = some heap[p] := List.getElem?_eq_getElem hp
    have hwf1 : ∀ x ∈ rest, x < (heap.set p (manageDialog p_intf p heap[p]).1).length := by
      intro x hx
      rw [List.length_set]
      exact hwf x (List.mem_cons_of_mem _ hx)
    obtain ⟨heap1, log1, hrun, hlen, hall⟩ :=
      ih (heap.set p (manageDialog p_intf p heap[p]).1)
        (log ++ (manageDialog p_intf p heap[p]).2) hwf1
    refine ⟨heap1, log1, ?_, ?_, ?_⟩
    · simp only [manageLoop, hget]
      exact hrun
    · rw [hlen, List.length_set]
    · intro a
      obtain ⟨hh, hl⟩ := hall a
      by_cases hap : a = p
      · subst hap
        constructor
        · rw [hh]
          by_cases hin : a ∈ rest
          · simp [hin, hget, List.getElem?_set_self hp, manageDialog_again_fst]
          · simp [hin, hget, List.getElem?_set_self hp]
        · rw [hl, deliveriesFor_append, deliveriesFor_manageDialog]
          by_cases hin : a ∈ rest
          · simp [hin, hget, tickDeliveries, List.getElem?_set_self hp,
              manageDialog_again_snd]
          · simp [hin, hget, tickDeliveries]
      · have hpa : p ≠ a := fun e => hap e.symm
        constructor
        · rw [hh]
          simp [hap, List.getElem?_set_ne hpa]
        · rw [hl, deliveriesFor_append, deliveriesFor_manageDialog]
          simp [hap, tickDeliveries, List.getElem?_set_ne hpa]

/-- A tick that finds an interface: it returns, the registry keeps its queue
and counter and holds the interface found, and heap and log are those of the
loop. -/
theorem manage_bound_spec (p_list : Option (List intf_thread_t)) (heap : Heap)
    (p_playlist : playlist_t) (p_interaction : interaction_t) (p_intf : intf_thread_t)
    (hreg : p_playlist.p_interaction = some p_interaction)
    (hne : p_interaction.pp_dialogs ≠ [])
    (hwf : ∀ q ∈ p_interaction.pp_dialogs, q < heap.length)
    (hbound : (intf_InteractionSearchInterface p_list p_interaction).p_intf = some p_intf) :
    ∃ heap1 log1,
      intf_InteractionManage p_list heap p_playlist
        = some (heap1, { p_playlist with
            p_interaction := some { p_interaction with p_intf := some p_intf } }, log1) ∧
      heap1.length = heap.length ∧
      ∀ a, heap1[a]? = (if a ∈ p_interaction.pp_dialogs then
                (heap[a]?).map (fun d => (manageDialog p_intf a d).1) else heap[a]?) ∧
           deliveriesFor a log1 =
                (if a ∈ p_interaction.pp_dialogs then tickDeliveries p_intf heap a else []) := by
  have hq : (intf_InteractionSearchInterface p_list p_interaction).pp_dialogs
      = p_interaction.pp_dialogs := by
    unfold intf_InteractionSearchInterface
    cases p_list <;> rfl
  have hid : (intf_InteractionSearchInterface p_list p_interaction)
      = { p_interaction with p_intf := some p_intf } := by
    rw [← hbound]
    unfold intf_InteractionSearchInterface
    cases p_list <;> rfl
  obtain ⟨heap1, log1, hrun, hlen, hall⟩ :=
    manageLoop_spec p_intf p_interaction.pp_dialogs heap [] hwf
  refine ⟨heap1, log1, ?_, hlen, ?_⟩
  · have hlen0 : ¬ p_interaction.i_dialogs = 0 := by
      simpa [interaction_t.i_dialogs] using hne
    simp only [intf_InteractionManage, hreg, hlen0, if_false, hbound, hq, hrun, hid]
  · intro a
    obtain ⟨hh, hl⟩ := hall a
    refine ⟨hh, ?_⟩
    rw [hl]
    simp [deliveriesFor]

/-- A tick that finds no interface: heap, queue and counter stay, nothing is
delivered. -/
theorem manage_unbound_spec (p_list : Option (List intf_thread_t)) (heap : Heap)
    (p_playlist : playlist_t) (p_interaction : interaction_t)
    (hreg : p_playlist.p_interaction = some p_interaction)
    (hne : p_interaction.pp_dialogs ≠ [])
    (hnone : (intf_InteractionSearchInterface p_list p_interaction).p_intf = none) :
    ∃ p_playlist1 p_interaction1,
      intf_InteractionManage p_list heap p_playlist = some (heap, p_playlist1, []) ∧
      p_playlist1.p_interaction = some p_interaction1 ∧
      p_interaction1.pp_dialogs = p_interaction.pp_dialogs ∧
      p_interaction1.i_dialogs = p_interaction.i_dialogs ∧
      p_interaction1.i_last_id = p_interaction.i_last_id := by
  have hlen0 : ¬ p_interaction.i_dialogs = 0 := by
    simpa [interaction_t.i_dialogs] using hne
  refine ⟨{ p_playlist with
      p_interaction := some (intf_InteractionSearchInterface p_list p_interaction) },
    intf_InteractionSearchInterface p_list p_interaction, ?_, rfl, ?_, ?_, ?_⟩
  · simp only [intf_InteractionManage, hreg, hlen0, if_false, hnone]
  · unfold intf_InteractionSearchInterface; cases p_list <;> rfl
  · unfold intf_InteractionSearchInterface interaction_t.i_dialogs; cases p_list <;> rfl
  · unfold intf_InteractionSearchInterface; cases p_list <;> rfl

/-! ## The transitions of one tick -/

/-- C1: for a registry whose queue holds valid pointers and for which the
resolution of the tick binds an interface, a queued dialog whose status is
`NEW_DIALOG` when `intf_InteractionManage` starts has, when it returns, status
`SENT_DIALOG` and action `INTERACT_NEW`, and the tick made exactly one
`var_Set` for it, to the bound interface, showing the dialog with action
`INTERACT_NEW`. -/
theorem C1_new_dialog_sent_once (p_list : Option (List intf_thread_t)) (heap : Heap)
    (p_playlist : playlist_t) (p_interaction : interaction_t) (p_intf : intf_thread_t)
    (p : Nat) (d : interaction_dialog_t)
    (hreg : p_playlist.p_interaction = some p_interaction)
    (hwf : ∀ q ∈ p_interaction.pp_dialogs, q < heap.length)
    (hbound : (intf_InteractionSearchInterface p_list p_interaction).p_intf = some p_intf)
    (hq : p ∈ p_interaction.pp_dialogs) (hd : heap[p]? = some d)
    (hnew : d.i_status = .NEW_DIALOG) :
    ∃ heap1 p_playlist1 log d1,
      intf_InteractionManage p_list heap p_playlist = some (heap1, p_playlist1, log) ∧
      heap1[p]? = some d1 ∧ d1.i_status = .SENT_DIALOG ∧ d1.i_action = .INTERACT_NEW ∧
      (deliveriesFor p log).length = 1 ∧
      deliveriesFor p log = [⟨p_intf, p, { d with i_action := .INTERACT_NEW }⟩] := by
  obtain ⟨heap1, log1, hrun, _, hall⟩ :=
    manage_bound_spec p_list heap p_playlist p_interaction p_intf hreg
      (List.ne_nil_of_mem hq) hwf hbound
  obtain ⟨hh, hl⟩ := hall p
  have hmd : manageDialog p_intf p d
      = ({ d with i_action := .INTERACT_NEW, i_status := .SENT_DIALOG },
         [⟨p_intf, p, { d with i_action := .INTERACT_NEW }⟩]) := by
    simp only [manageDialog, hnew]
  refine ⟨heap1, _, log1, (manageDialog p_intf p d).1, hrun, ?_, ?_, ?_, ?_, ?_⟩
  · rw [hh]; simp [hq, hd]
  · rw [hmd]
  · rw [hmd]
  · rw [hl]; simp [hq, tickDeliveries, hd, hmd]
  · rw [hl]; simp [hq, tickDeliveries, hd, hmd]

/-- C1, at a queue of one new dialog and one capable interface. -/
theorem C1_new_dialog_sent_once_witness :
    ∃ heap1 p_playlist1 log d1,
      intf_InteractionManage (some [plainIntf, sampleIntf])
          [sampleDialog 6 .INTERACT_FATAL .NEW_DIALOG false] (samplePlaylist [0] 6)
        = some (heap1, p_playlist1, log) ∧
      heap1[0]? = some d1 ∧ d1.i_status = .SENT_DIALOG ∧ d1.i_action = .INTERACT_NEW ∧
      (deliveriesFor 0 log).length = 1 ∧
      deliveriesFor 0 log
        = [⟨sampleIntf, 0,
            { sampleDialog 6 .INTERACT_FATAL .NEW_DIALOG false with
                i_action := .INTERACT_NEW }⟩] :=
  C1_new_dialog_sent_once (some [plainIntf, sampleIntf])
    [sampleDialog 6 .INTERACT_FATAL .NEW_DIALOG false] (samplePlaylist [0] 6)
    { pp_dialogs := [0], p_intf := none, i_last_id := 6 } sampleIntf 0
    (sampleDialog 6 .INTERACT_FATAL .NEW_DIALOG false) rfl (by decide) rfl (by decide) rfl rfl

/-- C2: for a registry whose queue holds valid pointers and for which the
resolution of the tick binds an interface, a queued dialog whose status is
`ANSWERED_DIALOG` when `intf_InteractionManage` starts has, when it returns,
status `HIDING_DIALOG` and action `INTERACT_HIDE`, and the tick made exactly
one `var_Set` for it, showing the dialog with action `INTERACT_HIDE`. -/
theorem C2_answered_dialog_hiding_once (p_list : Option (List intf_thread_t)) (heap : Heap)
    (p_playlist : playlist_t) (p_interaction : interaction_t) (p_intf : intf_thread_t)
    (p : Nat) (d : interaction_dialog_t)
    (hreg : p_playlist.p_interaction = some p_interaction)
    (hwf : ∀ q ∈ p_interaction.pp_dialogs, q < heap.length)
    (hbound : (intf_InteractionSearchInterface p_list p_interaction).p_intf = some p_intf)
    (hq : p ∈ p_interaction.pp_dialogs) (hd : heap[p]? = some d)
    (hans : d.i_status = .ANSWERED_DIALOG) :
    ∃ heap1 p_playlist1 log d1,
      intf_InteractionManage p_list heap p_playlist = some (heap1, p_playlist1, log) ∧
      heap1[p]? = some d1 ∧ d1.i_status = .HIDING_DIALOG ∧ d1.i_action = .INTERACT_HIDE ∧
      (deliveriesFor p log).length = 1 ∧
      deliveriesFor p log = [⟨p_intf, p, { d with i_action := .INTERACT_HIDE }⟩] := by
  obtain ⟨heap1, log1, hrun, _, hall⟩ :=
    manage_bound_spec p_list heap p_playlist p_interaction p_intf hreg
      (List.ne_nil_of_mem hq) hwf hbound
  obtain ⟨hh, hl⟩ := hall p
  have hmd : manageDialog p_intf p d
      = ({ d with i_action := .INTERACT_HIDE, i_status := .HIDING_DIALOG },
         [⟨p_intf, p, { d with i_action := .INTERACT_HIDE }⟩]) := by
    simp only [manageDialog, hans]
  refine ⟨heap1, _, log1, (manageDialog p_intf p d).1, hrun, ?_, ?_, ?_, ?_, ?_⟩
  · rw [hh]; simp [hq, hd]
  · rw [hmd]
  · rw [hmd]
  · rw [hl]; simp [hq, tickDeliveries, hd, hmd]
  · rw [hl]; simp [hq, tickDeliveries, hd, hmd]

/-- C2, at a queue holding one answered dialog twice. -/
theorem C2_answered_dialog_hiding_once_witness :
    ∃ heap1 p_playlist1 log d1,
      intf_InteractionManage (some [sampleIntf])
          [sampleDialog 6 .INTERACT_FATAL .ANSWERED_DIALOG false] (samplePlaylist [0, 0] 6)
        = some (heap1, p_playlist1, log) ∧
      heap1[0]? = some d1 ∧ d1.i_status = .HIDING_DIALOG ∧ d1.i_action = .INTERACT_HIDE ∧
      (deliveriesFor 0 log).length = 1 ∧
      deliveriesFor 0 log
        = [⟨sampleIntf, 0,
            { sampleDialog 6 .INTERACT_FATAL .ANSWERED_DIALOG false with
                i_action := .INTERACT_HIDE }⟩] :=
  C2_answered_dialog_hiding_once (some [sampleIntf])
    [sampleDialog 6 .INTERACT_FATAL .ANSWERED_DIALOG false] (samplePlaylist [0, 0] 6)
    { pp_dialogs := [0, 0], p_intf := none, i_last_id := 6 } sampleIntf 0
    (sampleDialog 6 .INTERACT_FATAL .ANSWERED_DIALOG false) rfl (by decide) rfl (by decide)
    rfl rfl

/-- C3: for a registry whose queue holds valid pointers and for which the
resolution of the tick binds an interface, a queued dialog whose status is
`UPDATED_DIALOG` when `intf_InteractionManage` starts has status `SENT_DIALOG`
when it returns, the tick made exactly one `var_Set` for it, showing the dialog
with action `INTERACT_UPDATE`, and the queue after the tick is the queue before
it, so of the same length. -/
theorem C3_updated_dialog_sent_once (p_list : Option (List intf_thread_t)) (heap : Heap)
    (p_playlist : playlist_t) (p_interaction : interaction_t) (p_intf : intf_thread_t)
    (p : Nat) (d : interaction_dialog_t)
    (hreg : p_playlist.p_interaction = some p_interaction)
    (hwf : ∀ q ∈ p_interaction.pp_dialogs, q < heap.length)
    (hbound : (intf_InteractionSearchInterface p_list p_interaction).p_intf = some p_intf)
    (hq : p ∈ p_interaction.pp_dialogs) (hd : heap[p]? = some d)
    (hupd : d.i_status = .UPDATED_DIALOG) :
    ∃ heap1 p_playlist1 p_interaction1 log d1,
      intf_InteractionManage p_list heap p_playlist = some (heap1, p_playlist1, log) ∧
      heap1[p]? = some d1 ∧ d1.i_status = .SENT_DIALOG ∧
      (deliveriesFor p log).length = 1 ∧
      deliveriesFor p log = [⟨p_intf, p, { d with i_action := .INTERACT_UPDATE }⟩] ∧
      p_playlist1.p_interaction = some p_interaction1 ∧
      p_interaction1.pp_dialogs = p_interaction.pp_dialogs ∧
      p_interaction1.i_dialogs = p_interaction.i_dialogs := by
  obtain ⟨heap1, log1, hrun, _, hall⟩ :=
    manage_bound_spec p_list heap p_playlist p_interaction p_intf hreg
      (List.ne_nil_of_mem hq) hwf hbound
  obtain ⟨hh, hl⟩ := hall p
  have hmd : manageDialog p_intf p d
      = ({ d with i_action := .INTERACT_UPDATE, i_status := .SENT_DIALOG },
         [⟨p_intf, p, { d with i_action := .INTERACT_UPDATE }⟩]) := by
    simp only [manageDialog, hupd]
  refine ⟨heap1, _, _, log1, (manageDialog p_intf p d).1, hrun, ?_, ?_, ?_, ?_, rfl, rfl, rfl⟩
  · rw [hh]; simp [hq, hd]
  · rw [hmd]
  · rw [hl]; simp [hq, tickDeliveries, hd, hmd]
  · rw [hl]; simp [hq, tickDeliveries, hd, hmd]

/-- C3, at a queue of a sent dialog and an updated progress dialog. -/
theorem C3_updated_dialog_sent_once_witness :
    ∃ heap1 p_playlist1 p_interaction1 log d1,
      intf_InteractionManage (some [sampleIntf])
          [sampleDialog 6 .INTERACT_FATAL .SENT_DIALOG false,
           sampleDialog 7 .INTERACT_PROGRESS .UPDATED_DIALOG true] (samplePlaylist [0, 1] 7)
        = some (heap1, p_playlist1, log) ∧
      heap1[1]? = some d1 ∧ d1.i_status = .SENT_DIALOG ∧
      (deliveriesFor 1 log).length = 1 ∧
      deliveriesFor 1 log
        = [⟨sampleIntf, 1,
            { sampleDialog 7 .INTERACT_PROGRESS .UPDATED_DIALOG true with
                i_action := .INTERACT_UPDATE }⟩] ∧
      p_playlist1.p_interaction = some p_interaction1 ∧
      p_interaction1.pp_dialogs = [0, 1] ∧
      p_interaction1.i_dialogs = 2 :=
  C3_updated_dialog_sent_once (some [sampleIntf])
    [sampleDialog 6 .INTERACT_FATAL .SENT_DIALOG false,
     sampleDialog 7 .INTERACT_PROGRESS .UPDATED_DIALOG true] (samplePlaylist [0, 1] 7)
    { pp_dialogs := [0, 1], p_intf := none, i_last_id := 7 } sampleIntf 1
    (sampleDialog 7 .INTERACT_PROGRESS .UPDATED_DIALOG true) rfl (by decide) rfl (by decide)
    rfl rfl

/-- C4: for a registry with a non-empty queue, when the resolution of the tick
binds no interface, `intf_InteractionManage` returns with the heap as it was,
so with the status and the action of every dialog unchanged, with the queue of
the registry as it was, in length and order, and with no delivery. -/
theorem C4_no_interface_no_change (p_list : Option (List intf_thread_t)) (heap : Heap)
    (p_playlist : playlist_t) (p_interaction : interaction_t)
    (hreg : p_playlist.p_interaction = some p_interaction)
    (hne : p_interaction.pp_dialogs ≠ [])
    (hnone : (intf_InteractionSearchInterface p_list p_interaction).p_intf = none) :
    ∃ p_playlist1 p_interaction1,
      intf_InteractionManage p_list heap p_playlist = some (heap, p_playlist1, []) ∧
      p_playlist1.p_interaction = some p_interaction1 ∧
      p_interaction1.pp_dialogs = p_interaction.pp_dialogs ∧
      p_interaction1.i_dialogs = p_interaction.i_dialogs ∧
      p_interaction1.i_last_id = p_interaction.i_last_id :=
  manage_unbound_spec p_list heap p_playlist p_interaction hreg hne hnone

/-- C4, at a queue of two dialogs and an interface list without a capable
interface. -/
theorem C4_no_interface_no_change_witness :
    ∃ p_playlist1 p_interaction1,
      intf_InteractionManage (some [plainIntf])
          [sampleDialog 6 .INTERACT_FATAL .NEW_DIALOG false,
           sampleDialog 7 .INTERACT_FATAL .ANSWERED_DIALOG false]
          { p_interaction := some { pp_dialogs := [0, 1], p_intf := some sampleIntf,
                                    i_last_id := 7 } }
        = some ([sampleDialog 6 .INTERACT_FATAL .NEW_DIALOG false,
                 sampleDialog 7 .INTERACT_FATAL .ANSWERED_DIALOG false], p_playlist1, []) ∧
      p_playlist1.p_interaction = some p_interaction1 ∧
      p_interaction1.pp_dialogs = [0, 1] ∧
      p_interaction1.i_dialogs = 2 ∧
      p_interaction1.i_last_id = 7 :=
  C4_no_interface_no_change (some [plainIntf])
    [sampleDialog 6 .INTERACT_FATAL .NEW_DIALOG false,
     sampleDialog 7 .INTERACT_FATAL .ANSWERED_DIALOG false]
    { p_interaction := some { pp_dialogs := [0, 1], p_intf := some sampleIntf,
                              i_last_id := 7 } }
    { pp_dialogs := [0, 1], p_intf := some sampleIntf, i_last_id := 7 } rfl (by decide) rfl

/-! ## Lemmas on submission -/

theorem INSERT_ELEM_length {α : Type} (l : List α) (x : α) :
    INSERT_ELEM l l.length x = l ++ [x] := by
  simp [INSERT_ELEM]

theorem get_of_registry (DLP : Int) (b : Bool) (w : World) (r : interaction_t)
    (hreg : w.registry = some r) : intf_InteractionGet DLP b w = (w, some r) := by
  rcases w with ⟨heap, pl⟩
  cases pl with
  | none => simp [World.registry] at hreg
  | some pl =>
    rcases pl with ⟨pi⟩
    simp only [World.registry] at hreg
    subst hreg
    simp [intf_InteractionGet]

theorem registry_setInteraction (w : World) (r r1 : interaction_t)
    (hreg : w.registry = some r) : (w.setInteraction r1).registry = some r1 := by
  rcases w with ⟨heap, pl⟩
  cases pl with
  | none => simp [World.registry] at hreg
  | some pl => simp [World.registry, World.setInteraction]

/-- With a registry in place and a valid dialog pointer, `__intf_Interact`
returns `VLC_SUCCESS`; a dialog of id 0 gets the incremented counter, and a
dialog that is not of type `INTERACT_ASK` is appended to the queue. -/
theorem interact_spec (DLP : Int) (b : Bool) (w : World) (p : Nat) (r : interaction_t)
    (d : interaction_dialog_t) (hreg : w.registry = some r) (hd : w.heap[p]? = some d) :
    ∃ w1, __intf_Interact DLP b w p = some (w1, VLC_SUCCESS) ∧
      w1.heap = (if d.i_id = 0 then w.heap.set p { d with i_id := r.i_last_id + 1 }
                 else w.heap) ∧
      w1.registry = some
        { pp_dialogs := if d.i_type = .INTERACT_ASK then r.pp_dialogs
                        else r.pp_dialogs ++ [p]
          p_intf := r.p_intf
          i_last_id := if d.i_id = 0 then r.i_last_id + 1 else r.i_last_id } := by
  have hget := get_of_registry DLP b w r hreg
  by_cases hid : d.i_id = 0 <;> by_cases hty : d.i_type = .INTERACT_ASK
  · simp only [__intf_Interact, hget, hd, assignId, hid, if_true, hty, intf_WaitAnswer]
    refine ⟨_, rfl, ?_, ?_⟩
    · simp
    · simp [World.registry, World.setInteraction]
      rcases w with ⟨heap, pl⟩
      cases pl with
      | none => simp [World.registry] at hreg
      | some pl => simp
  · simp only [__intf_Interact, hget, hd, assignId, hid, if_true, hty, if_false, intf_Send]
    refine ⟨_, rfl, ?_, ?_⟩
    · simp [World.setInteraction]
    · simp [World.registry, World.setInteraction, interaction_t.i_dialogs,
        INSERT_ELEM_length]
      rcases w with ⟨heap, pl⟩
      cases pl with
      | none => simp [World.registry] at hreg
      | some pl => simp
  · simp only [__intf_Interact, hget, hd, assignId, hid, if_false, hty, if_true,
      intf_WaitAnswer]
    exact ⟨_, rfl, rfl, by simp [hreg]⟩
  · simp only [__intf_Interact, hget, hd, assignId, hid, if_false, hty, intf_Send]
    refine ⟨_, rfl, ?_, ?_⟩
    · simp [World.setInteraction]
    · rw [registry_setInteraction w r _ hreg]
      simp [interaction_t.i_dialogs, INSERT_ELEM_length]

/-! ## Ids given by the counter -/

/-- A run of `interactSeq` on valid pointers ends with a registry in place, and
when every dialog has id 0 at its call the ids written are increasing and all
above the counter the run starts with. -/
theorem interactSeq_spec (DLP : Int) (b : Bool) :
    ∀ (ps : List Nat) (w : World) (r : interaction_t),
      w.registry = some r → (∀ p ∈ ps, p < w.heap.length) →
      ∃ w1 tr, interactSeq DLP b w ps = some (w1, tr) ∧ tr.length = ps.length ∧
        ((∀ e ∈ tr, e.1 = 0) →
          (tr.map Prod.snd).Pairwise (fun x y => x < y) ∧
          ∀ x ∈ tr.map Prod.snd, r.i_last_id < x) := by
  intro ps
  induction ps with
  | nil =>
    intro w r _ _
    exact ⟨w, [], rfl, rfl, fun _ => by simp⟩
  | cons p rest ih =>
    intro w r hreg hvalid
    have hp : p < w.heap.length := hvalid p (List.mem_cons_self _ _)
    have hd : w.heap[p]? = some w.heap[p] := List.getElem?_eq_getElem hp
    obtain ⟨w1, hcall, hheap, hreg1⟩ := interact_spec DLP b w p r w.heap[p] hreg hd
    have hlen : w1.heap.length = w.heap.length := by
      rw [hheap]; split <;> simp
    have hp1 : p < w1.heap.length := by rw [hlen]; exact hp
    have hd1 : w1.heap[p]? = some w1.heap[p] := List.getElem?_eq_getElem hp1
    have hvalid1 : ∀ x ∈ rest, x < w1.heap.length := by
      intro x hx; rw [hlen]; exact hvalid x (List.mem_cons_of_mem _ hx)
    obtain ⟨w2, tr, hrun, htr, hinc⟩ := ih w1 _ hreg1 hvalid1
    refine ⟨w2, (w.heap[p].i_id, w1.heap[p].i_id) :: tr, ?_, by simp [htr], ?_⟩
    · simp only [interactSeq, hd, hcall, hd1, hrun]
    · intro hzero
      have hz : w.heap[p].i_id = 0 := hzero _ (List.mem_cons_self _ _)
      obtain ⟨hpw, habove⟩ := hinc (fun e he => hzero e (List.mem_cons_of_mem _ he))
      simp only [hz, if_true] at habove
      have hnew : w1.heap[p].i_id = r.i_last_id + 1 := by
        have h2 : w1.heap[p]? = some { w.heap[p] with i_id := r.i_last_id + 1 } := by
          rw [hheap]; simp only [hz, if_true]
          exact List.getElem?_set_self hp
        rw [hd1] at h2
        have h3 := Option.some.inj h2
        rw [h3]
      constructor
      · simp only [List.map_cons, List.pairwise_cons]
        refine ⟨?_, hpw⟩
        intro x hx
        rw [hnew]
        exact habove x hx
      · intro x hx
        simp only [List.map_cons, List.mem_cons] at hx
        rcases hx with hx | hx
        · rw [hx, hnew]; omega
        · have := habove x hx
          omega

theorem wrapInt32_of_range (x : Int) (hlo : INT_MIN ≤ x) (hhi : x ≤ INT_MAX) :
    wrapInt32 x = x := by
  unfold INT_MIN at hlo
  unfold INT_MAX at hhi
  unfold wrapInt32
  omega

/-- While the counter is below `INT_MAX` the 32-bit call is the call on
unbounded integers. -/
theorem interact_int32_eq (DLP : Int) (b : Bool) (w : World) (p : Nat) (r : interaction_t)
    (hreg : w.registry = some r) (hlo : INT_MIN ≤ r.i_last_id) (hhi : r.i_last_id < INT_MAX) :
    __intf_Interact_int32 DLP b w p = __intf_Interact DLP b w p := by
  have hget := get_of_registry DLP b w r hreg
  have hw : wrapInt32 (r.i_last_id + 1) = r.i_last_id + 1 :=
    wrapInt32_of_range _ (by omega) (by omega)
  have hassign : ∀ d, assignId_int32 w (some r) p d = assignId w (some r) p d := by
    intro d
    simp only [assignId_int32, assignId, hw]
  unfold __intf_Interact_int32 __intf_Interact
  simp only [hget]
  cases w.heap[p]? with
  | none => rfl
  | some d => simp only [hassign]

/-- While the counter cannot reach `INT_MAX` in the calls to come, the 32-bit
run is the run on unbounded integers. -/
theorem interactSeq_int32_eq (DLP : Int) (b : Bool) :
    ∀ (ps : List Nat) (w : World) (r : interaction_t),
      w.registry = some r → INT_MIN ≤ r.i_last_id → r.i_last_id + ps.length ≤ INT_MAX →
      interactSeq_int32 DLP b w ps = interactSeq DLP b w ps := by
  intro ps
  induction ps with
  | nil =>
    intro w r _ _ _
    rfl
  | cons p rest ih =>
    intro w r hreg hlo hhi
    have hlen : ((p :: rest).length : Int) = (rest.length : Int) + 1 := by simp
    rw [hlen] at hhi
    have hr : (0 : Int) ≤ rest.length := Int.ofNat_nonneg _
    have hcall := interact_int32_eq DLP b w p r hreg hlo (by omega)
    cases hd : w.heap[p]? with
    | none => simp only [interactSeq_int32, interactSeq, hd]
    | some d =>
      obtain ⟨w1, hrun, _, hreg1⟩ := interact_spec DLP b w p r d hreg hd
      have hrest := ih w1 _ hreg1
        (by show INT_MIN ≤ (if d.i_id = 0 then r.i_last_id + 1 else r.i_last_id)
            split <;> omega)
        (by show (if d.i_id = 0 then r.i_last_id + 1 else r.i_last_id) + (rest.length : Int)
              ≤ INT_MAX
            split <;> omega)
      simp only [interactSeq_int32, interactSeq, hd, hcall, hrun, hrest]

/-- C5, as the claim states it, fails on the 32-bit counter: from a counter of
`INT_MAX - 1` two calls on dialogs of id 0 write the ids `2147483647` and
`-2147483648`, which do not increase. -/
theorem C5_ids_wrap_counterexample :
    (interactSeq_int32 4 true nearOverflowWorld [0, 1]).map Prod.snd
      = some [(0, 2147483647), (0, -2147483648)] ∧
    ¬ ∃ w1 tr, interactSeq_int32 4 true nearOverflowWorld [0, 1] = some (w1, tr) ∧
        ((∀ e ∈ tr, e.1 = 0) →
          (tr.map Prod.snd).Pairwise (fun x y => x < y) ∧ (tr.map Prod.snd).Nodup) := by
  refine ⟨rfl, ?_⟩
  rintro ⟨w1, tr, hrun, h⟩
  have htr : (interactSeq_int32 4 true nearOverflowWorld [0, 1]).map Prod.snd
      = some [(0, 2147483647), (0, -2147483648)] := rfl
  rw [hrun] at htr
  simp only [Option.map_some', Option.some.injEq] at htr
  subst htr
  have hpw := (h (by decide)).1
  revert hpw
  decide

/-- C5, amended: on a registry whose 32-bit counter cannot overflow in the calls
made (`INT_MIN <= i_last_id` and `i_last_id` plus the number of calls is at most
`INT_MAX`), for every sequence of `__intf_Interact` calls on valid dialog
pointers, made one after the other, every call returns; and when each dialog
has id 0 at its call (dialogs of type `INTERACT_ASK` among them), the ids
written are strictly increasing in call order and pairwise distinct. -/
theorem C5_ids_increasing_without_overflow (DLP : Int) (b_create : Bool) (w : World)
    (r : interaction_t) (ps : List Nat)
    (hreg : w.registry = some r) (hvalid : ∀ p ∈ ps, p < w.heap.length)
    (hlo : INT_MIN ≤ r.i_last_id) (hhi : r.i_last_id + ps.length ≤ INT_MAX) :
    ∃ w1 tr, interactSeq_int32 DLP b_create w ps = some (w1, tr) ∧ tr.length = ps.length ∧
      ((∀ e ∈ tr, e.1 = 0) →
        (tr.map Prod.snd).Pairwise (fun x y => x < y) ∧ (tr.map Prod.snd).Nodup) := by
  obtain ⟨w1, tr, hrun, hlen, hinc⟩ := interactSeq_spec DLP b_create ps w r hreg hvalid
  rw [interactSeq_int32_eq DLP b_create ps w r hreg hlo hhi]
  refine ⟨w1, tr, hrun, hlen, fun hz => ⟨(hinc hz).1, ?_⟩⟩
  exact (hinc hz).1.imp (fun h => ne_of_lt h)

/-- C5 amended, at three dialogs of id 0, the second of type `INTERACT_ASK`,
and a counter of 9. -/
theorem C5_ids_increasing_without_overflow_witness :
    (interactSeq_int32 4 true
        { heap := [sampleDialog 0 .INTERACT_FATAL .NEW_DIALOG false,
                   sampleDialog 0 .INTERACT_ASK .NEW_DIALOG false,
                   sampleDialog 0 .INTERACT_WARNING .NEW_DIALOG false]
          p_playlist := some (samplePlaylist [] 9) } [0, 1, 2]).map Prod.snd
      = some [(0, 10), (0, 11), (0, 12)] ∧
    ∃ w1 tr,
      interactSeq_int32 4 true
        { heap := [sampleDialog 0 .INTERACT_FATAL .NEW_DIALOG false,
                   sampleDialog 0 .INTERACT_ASK .NEW_DIALOG false,
                   sampleDialog 0 .INTERACT_WARNING .NEW_DIALOG false]
          p_playlist := some (samplePlaylist [] 9) } [0, 1, 2] = some (w1, tr) ∧
      tr.length = [0, 1, 2].length ∧
      ((∀ e ∈ tr, e.1 = 0) →
        (tr.map Prod.snd).Pairwise (fun x y => x < y) ∧ (tr.map Prod.snd).Nodup) :=
  ⟨rfl, C5_ids_increasing_without_overflow 4 true
    { heap := [sampleDialog 0 .INTERACT_FATAL .NEW_DIALOG false,
               sampleDialog 0 .INTERACT_ASK .NEW_DIALOG false,
               sampleDialog 0 .INTERACT_WARNING .NEW_DIALOG false]
      p_playlist := some (samplePlaylist [] 9) }
    { pp_dialogs := [], p_intf := none, i_last_id := 9 } [0, 1, 2] rfl (by decide)
    (by decide) (by decide)⟩

/-- C6, as the claim states it, fails: with `DIALOG_LAST_PREDEFINED = 4`, the
first `__intf_Interact` on a fresh registry with a dialog of id 0 does not give
the id `4 + 1`. -/
theorem C6_first_id_counterexample :
    ¬ ∃ w1 ret d1,
        __intf_Interact 4 true
            (freshWorld 4 [sampleDialog 0 .INTERACT_FATAL .NEW_DIALOG false]) 0
          = some (w1, ret) ∧
        w1.heap[0]? = some d1 ∧ d1.i_id = 4 + 1 := by
  rintro ⟨w1, ret, d1, hcall, hd1, hid⟩
  have hrun : __intf_Interact 4 true
      (freshWorld 4 [sampleDialog 0 .INTERACT_FATAL .NEW_DIALOG false]) 0
      = some ({ heap := [sampleDialog 6 .INTERACT_FATAL .NEW_DIALOG false]
                p_playlist := some (samplePlaylist [0] 6) }, VLC_SUCCESS) := rfl
  rw [hrun] at hcall
  cases hcall
  cases hd1
  revert hid
  decide

/-- C6, amended: on a registry just made by `intf_InteractionInit`, the first
`__intf_Interact` call with a valid pointer to a dialog of id 0 returns
`VLC_SUCCESS` and gives the dialog the id `DIALOG_LAST_PREDEFINED + 2`: the
counter starts at `DIALOG_LAST_PREDEFINED + 1` and is incremented before it is
used. -/
theorem C6_first_id_is_last_predefined_plus_two (DLP : Int) (b_create : Bool) (heap : Heap)
    (p : Nat) (d : interaction_dialog_t) (hd : heap[p]? = some d) (hid : d.i_id = 0) :
    ∃ w1 d1, __intf_Interact DLP b_create (freshWorld DLP heap) p = some (w1, VLC_SUCCESS) ∧
      w1.heap[p]? = some d1 ∧ d1 = { d with i_id := DLP + 2 } ∧ d1.i_id = DLP + 2 := by
  obtain ⟨w1, hcall, hheap, _⟩ :=
    interact_spec DLP b_create (freshWorld DLP heap) p
      { pp_dialogs := [], p_intf := none, i_last_id := DLP + 1 } d rfl hd
  have hp : p < heap.length := (List.getElem?_eq_some.mp hd).1
  have h12 : DLP + 1 + 1 = DLP + 2 := by ring
  refine ⟨w1, { d with i_id := DLP + 2 }, hcall, ?_, rfl, rfl⟩
  rw [hheap]
  simp only [hid, if_true, h12]
  exact List.getElem?_set_self hp

/-- C6 amended, at `DIALOG_LAST_PREDEFINED = 4`. -/
theorem C6_first_id_is_last_predefined_plus_two_witness :
    ∃ w1 d1,
      __intf_Interact 4 true
          (freshWorld 4 [sampleDialog 0 .INTERACT_FATAL .NEW_DIALOG false]) 0
        = some (w1, VLC_SUCCESS) ∧
      w1.heap[0]? = some d1 ∧
      d1 = { sampleDialog 0 .INTERACT_FATAL .NEW_DIALOG false with i_id := 4 + 2 } ∧
      d1.i_id = 4 + 2 :=
  C6_first_id_is_last_predefined_plus_two 4 true
    [sampleDialog 0 .INTERACT_FATAL .NEW_DIALOG false] 0
    (sampleDialog 0 .INTERACT_FATAL .NEW_DIALOG false) rfl rfl

/-! ## The missing check of `intf_Send` -/

/-- C7: the code at the failing input.  The queue holds the dialog at address 0
with the predefined id 2; `__intf_Interact` on the warning dialog at address 1,
which carries the same explicit id 2, returns `VLC_SUCCESS` and the queue
becomes `[0, 1]`. -/
theorem C7_duplicate_id_is_enqueued :
    __intf_Interact 4 true
        { heap := [sampleDialog 2 .INTERACT_FATAL .SENT_DIALOG false,
                   sampleDialog 2 .INTERACT_WARNING .NEW_DIALOG false]
          p_playlist := some (samplePlaylist [0] 5) } 1
      = some ({ heap := [sampleDialog 2 .INTERACT_FATAL .SENT_DIALOG false,
                         sampleDialog 2 .INTERACT_WARNING .NEW_DIALOG false]
                p_playlist := some (samplePlaylist [0, 1] 5) }, VLC_SUCCESS) := rfl

/-- C8: the code at the failing input.  On a fresh registry two calls of
`__intf_UserFatal` with the predefined id 2 leave a queue of two entries, both
the object at address 0, so both of id 2. -/
theorem C8_user_fatal_twice_duplicates :
    (runCalls 4 (freshWorld 4 [])
        [.userFatal true (sampleDialog 0 .INTERACT_NOTIFY .NEW_DIALOG false) 2
            "Error" "disk full",
         .userFatal true (sampleDialog 0 .INTERACT_NOTIFY .NEW_DIALOG false) 2
            "Error" "disk full"]).map
      (fun w => (w.registry.map (fun r => r.pp_dialogs), queueIds w))
      = some (some [0, 0], [some 2, some 2]) := rfl

/-- C10: the code at the failing input.  The queue holds one dialog, hidden and
not reusable; after `intf_InteractionManage` with a bound interface the queue
still holds it, the heap is as before and nothing was delivered. -/
theorem C10_hidden_dialog_stays_queued :
    intf_InteractionManage (some [sampleIntf])
        [sampleDialog 6 .INTERACT_FATAL .HIDDEN_DIALOG false] (samplePlaylist [0] 6)
      = some ([sampleDialog 6 .INTERACT_FATAL .HIDDEN_DIALOG false],
              { p_interaction := some { pp_dialogs := [0], p_intf := some sampleIntf,
                                        i_last_id := 6 } }, []) := rfl

/-! ## The ids of the queue entries -/

theorem manageDialog_id (p_intf : intf_thread_t) (p : Nat) (d : interaction_dialog_t) :
    (manageDialog p_intf p d).1.i_id = d.i_id := by
  rcases d with ⟨i, t, ti, de, w, r, s, a⟩
  cases s <;> rfl

theorem KeepsIds.refl (heap : Heap) : KeepsIds heap heap := by
  intro a d hd hid
  exact ⟨d, hd, hid⟩

theorem KeepsIds.trans {h1 h2 h3 : Heap} (h12 : KeepsIds h1 h2) (h23 : KeepsIds h2 h3) :
    KeepsIds h1 h3 := by
  intro a d hd hid
  obtain ⟨d2, hd2, hid2⟩ := h12 a d hd hid
  exact h23 a d2 hd2 hid2

theorem KeepsIds.append (heap : Heap) (d : interaction_dialog_t) :
    KeepsIds heap (heap ++ [d]) := by
  intro a d0 hd0 hid
  have ha : a < heap.length := (List.getElem?_eq_some.mp hd0).1
  exact ⟨d0, by rw [List.getElem?_append_left ha]; exact hd0, hid⟩

theorem KeepsIds.set (heap : Heap) (p : Nat) (d1 : interaction_dialog_t)
    (h : ∀ d, heap[p]? = some d → d.i_id ≠ 0 → d1.i_id ≠ 0) :
    KeepsIds heap (heap.set p d1) := by
  intro a d hd hid
  have ha : a < heap.length := (List.getElem?_eq_some.mp hd).1
  by_cases hap : p = a
  · subst hap
    exact ⟨d1, List.getElem?_set_self ha, h d hd hid⟩
  · exact ⟨d, by rw [List.getElem?_set_ne hap]; exact hd, hid⟩

/-- Any tick on a registry whose queue holds valid pointers returns; it keeps
the queue and the counter, and the id of every object of the heap. -/
theorem manage_frame (p_list : Option (List intf_thread_t)) (heap : Heap)
    (p_playlist : playlist_t) (r : interaction_t)
    (hreg : p_playlist.p_interaction = some r)
    (hwf : ∀ q ∈ r.pp_dialogs, q < heap.length) :
    ∃ heap1 p_playlist1 log r1,
      intf_InteractionManage p_list heap p_playlist = some (heap1, p_playlist1, log) ∧
      p_playlist1.p_interaction = some r1 ∧ r1.pp_dialogs = r.pp_dialogs ∧
      r1.i_last_id = r.i_last_id ∧
      ∀ (a : Nat) (d : interaction_dialog_t), heap[a]? = some d →
        ∃ d1 : interaction_dialog_t, heap1[a]? = some d1 ∧ d1.i_id = d.i_id := by
  by_cases hne : r.pp_dialogs = []
  · have h0 : r.i_dialogs = 0 := by simp [interaction_t.i_dialogs, hne]
    refine ⟨heap, p_playlist, [], r, ?_, hreg, rfl, rfl, fun a d hd => ⟨d, hd, rfl⟩⟩
    simp only [intf_InteractionManage, hreg, h0, if_true]
  · cases hs : (intf_InteractionSearchInterface p_list r).p_intf with
    | none =>
      obtain ⟨pl1, r1, hrun, hr1, hq, _, hc⟩ :=
        manage_unbound_spec p_list heap p_playlist r hreg hne hs
      exact ⟨heap, pl1, [], r1, hrun, hr1, hq, hc, fun a d hd => ⟨d, hd, rfl⟩⟩
    | some p_intf =>
      obtain ⟨heap1, log1, hrun, _, hall⟩ :=
        manage_bound_spec p_list heap p_playlist r p_intf hreg hne hwf hs
      refine ⟨heap1, _, log1, _, hrun, rfl, rfl, rfl, ?_⟩
      intro a d hd
      rw [(hall a).1]
      by_cases ha : a ∈ r.pp_dialogs
      · exact ⟨(manageDialog p_intf a d).1, by simp [ha, hd], manageDialog_id p_intf a d⟩
      · exact ⟨d, by simp [ha, hd], rfl⟩

theorem interact_frame (DLP : Int) (b : Bool) (w : World) (p : Nat) (r : interaction_t)
    (d : interaction_dialog_t) (hreg : w.registry = some r) (hc : 1 ≤ r.i_last_id)
    (hd : w.heap[p]? = some d) :
    ∃ w1 r1 d1, __intf_Interact DLP b w p = some (w1, VLC_SUCCESS) ∧
      w1.registry = some r1 ∧ 1 ≤ r1.i_last_id ∧ KeepsIds w.heap w1.heap ∧
      (∀ q ∈ r1.pp_dialogs, q ∈ r.pp_dialogs ∨ q = p) ∧
      w1.heap[p]? = some d1 ∧ d1.i_id ≠ 0 := by
  obtain ⟨w1, hcall, hheap, hreg1⟩ := interact_spec DLP b w p r d hreg hd
  have hp : p < w.heap.length := (List.getElem?_eq_some.mp hd).1
  have hqueue : ∀ q ∈ (if d.i_type = .INTERACT_ASK then r.pp_dialogs
      else r.pp_dialogs ++ [p]), q ∈ r.pp_dialogs ∨ q = p := by
    intro q hq
    split at hq
    · exact Or.inl hq
    · simpa using hq
  by_cases hid : d.i_id = 0
  · simp only [hid, if_true] at hheap hreg1
    refine ⟨w1, _, { d with i_id := r.i_last_id + 1 }, hcall, hreg1, ?_, ?_, hqueue, ?_, ?_⟩
    · show 1 ≤ r.i_last_id + 1
      omega
    · rw [hheap]
      apply KeepsIds.set
      intro _ _ _
      show r.i_last_id + 1 ≠ 0
      omega
    · rw [hheap]
      exact List.getElem?_set_self hp
    · show r.i_last_id + 1 ≠ 0
      omega
  · simp only [hid, if_false] at hheap hreg1
    refine ⟨w1, _, d, hcall, hreg1, hc, ?_, hqueue, ?_, hid⟩
    · rw [hheap]
      exact KeepsIds.refl _
    · rw [hheap]
      exact hd

theorem getByIdLoop_spec (heap : Heap) (i_id : Int) :
    ∀ q : List Nat, (∀ p ∈ q, p < heap.length) →
      ∃ found, getByIdLoop heap i_id q = some found ∧
        ∀ p, found = some p → ∃ d : interaction_dialog_t, heap[p]? = some d ∧ d.i_id = i_id := by
  intro q
  induction q with
  | nil =>
    intro _
    exact ⟨none, rfl, fun p hp => by cases hp⟩
  | cons a rest ih =>
    intro hwf
    have ha : a < heap.length := hwf a (List.mem_cons_self _ _)
    have hget : heap[a]? = some heap[a] := List.getElem?_eq_getElem ha
    by_cases hid : heap[a].i_id = i_id
    · refine ⟨some a, by simp only [getByIdLoop, hget, hid, if_true], ?_⟩
      intro p hp
      cases hp
      exact ⟨heap[a], hget, hid⟩
    · obtain ⟨found, hrun, hfound⟩ := ih (fun x hx => hwf x (List.mem_cons_of_mem _ hx))
      exact ⟨found, by simp only [getByIdLoop, hget, hid, if_false, hrun], hfound⟩

theorem heapUpdate_spec (heap : Heap) (p : Nat) (d : interaction_dialog_t)
    (f : interaction_dialog_t → interaction_dialog_t) (hd : heap[p]? = some d) :
    heapUpdate heap p f = some (heap.set p (f d)) := by
  simp only [heapUpdate, hd]

/-- With a registry whose queue holds valid pointers, lines 204-232 of
`__intf_UserFatal` end with a valid pointer to a dialog of type
`INTERACT_FATAL`; the registry is untouched and no id of the heap changes from
non-zero to zero. -/
theorem userFatalDialog_spec (DLP : Int) (b : Bool) (mem : interaction_dialog_t) (w : World)
    (i_id : Int) (psz_title psz_text : String) (r : interaction_t)
    (hreg : w.registry = some r) (hwf : ∀ q ∈ r.pp_dialogs, q < w.heap.length) :
    ∃ w1 p d1, userFatalDialog DLP b mem w i_id psz_title psz_text = some (w1, p) ∧
      w1.registry = some r ∧ KeepsIds w.heap w1.heap ∧
      w1.heap[p]? = some d1 ∧ d1.i_type = .INTERACT_FATAL := by
  have hget := get_of_registry DLP b w r hreg
  have hkeep_fresh : ∀ d0 d1 : interaction_dialog_t,
      KeepsIds w.heap ((w.heap ++ [d0]).set w.heap.length d1) := by
    intro d0 d1 a d hd hid
    have ha : a < w.heap.length := (List.getElem?_eq_some.mp hd).1
    have hne : w.heap.length ≠ a := by omega
    refine ⟨d, ?_, hid⟩
    rw [List.getElem?_set_ne hne, List.getElem?_append_left ha]
    exact hd
  have hlast : ∀ d0 d1 : interaction_dialog_t,
      ((w.heap ++ [d0]).set w.heap.length d1)[w.heap.length]? = some d1 :=
    fun d0 d1 => List.getElem?_set_self (by simp)
  by_cases hpos : i_id > 0
  · obtain ⟨found, hloop, hfound⟩ := getByIdLoop_spec w.heap i_id r.pp_dialogs hwf
    cases found with
    | none =>
      simp only [userFatalDialog, hpos, if_true, intf_InteractionGetById, hget, hloop,
        heapUpdate, List.getElem?_concat_length]
      exact ⟨_, _, _, rfl, hreg, hkeep_fresh _ _, hlast _ _, rfl⟩
    | some p =>
      obtain ⟨d, hd, hdid⟩ := hfound p rfl
      have hp : p < w.heap.length := (List.getElem?_eq_some.mp hd).1
      have hd2 : (w.heap.set p { d with i_status := .UPDATED_DIALOG })[p]?
          = some { d with i_status := .UPDATED_DIALOG } := List.getElem?_set_self hp
      simp only [userFatalDialog, hpos, if_true, intf_InteractionGetById, hget, hloop,
        heapUpdate, hd, hd2]
      refine ⟨_, _, _, rfl, hreg, ?_, List.getElem?_set_self (by simpa using hp), rfl⟩
      rw [List.set_set]
      apply KeepsIds.set
      intro d' hd' hid'
      rw [hd] at hd'
      cases hd'
      exact hid'
  · simp only [userFatalDialog, hpos, if_false, heapUpdate, List.getElem?_concat_length]
    exact ⟨_, _, _, rfl, hreg, hkeep_fresh _ _, hlast _ _, rfl⟩

theorem registry_playlist (w : World) (r : interaction_t) (hreg : w.registry = some r) :
    ∃ pl, w.p_playlist = some pl ∧ pl.p_interaction = some r := by
  rcases w with ⟨heap, pl⟩
  cases pl with
  | none => simp [World.registry] at hreg
  | some pl => exact ⟨pl, rfl, by simpa [World.registry] using hreg⟩

/-- The invariant survives an entry into the queue of a pointer whose dialog has
a non-zero id, on a heap that keeps the non-zero ids. -/
theorem BrokerInv.step {w w1 : World} {r r1 : interaction_t} {p : Nat}
    {d1 : interaction_dialog_t}
    (hq : ∀ q ∈ r.pp_dialogs, ∃ d : interaction_dialog_t, w.heap[q]? = some d ∧ d.i_id ≠ 0)
    (hreg1 : w1.registry = some r1) (hc1 : 1 ≤ r1.i_last_id)
    (hkeep : KeepsIds w.heap w1.heap)
    (hqueue : ∀ q ∈ r1.pp_dialogs, q ∈ r.pp_dialogs ∨ q = p)
    (hd1 : w1.heap[p]? = some d1) (hid1 : d1.i_id ≠ 0) : BrokerInv w1 := by
  refine ⟨r1, hreg1, hc1, ?_⟩
  intro q hq1
  rcases hqueue q hq1 with hold | hnew
  · obtain ⟨d, hd, hid⟩ := hq q hold
    exact hkeep q d hd hid
  · subst hnew
    exact ⟨d1, hd1, hid1⟩

/-- Every step with a valid pointer argument returns and keeps the invariant. -/
theorem stepCall_inv (DLP : Int) (w : World) (c : Call) (hinv : BrokerInv w)
    (hv : c.valid w) : ∃ w1, stepCall DLP w c = some w1 ∧ BrokerInv w1 := by
  obtain ⟨r, hreg, hc, hq⟩ := hinv
  have hwf : ∀ q ∈ r.pp_dialogs, q < w.heap.length := by
    intro q hq1
    obtain ⟨d, hd, _⟩ := hq q hq1
    exact (List.getElem?_eq_some.mp hd).1
  cases c with
  | alloc d =>
    refine ⟨_, rfl, r, ?_, hc, ?_⟩
    · obtain ⟨pl, hpl, hpi⟩ := registry_playlist w r hreg
      simp [World.registry, hpl, hpi]
    · intro q hq1
      obtain ⟨d0, hd0, hid0⟩ := hq q hq1
      exact KeepsIds.append w.heap d q d0 hd0 hid0
  | interact b p =>
    have hp : p < w.heap.length := hv
    obtain ⟨w1, r1, d1, hcall, hreg1, hc1, hkeep, hqueue, hd1, hid1⟩ :=
      interact_frame DLP b w p r w.heap[p] hreg hc (List.getElem?_eq_getElem hp)
    refine ⟨w1, by simp only [stepCall, hcall], ?_⟩
    exact BrokerInv.step hq hreg1 hc1 hkeep hqueue hd1 hid1
  | userFatal b mem i_id psz_title psz_text =>
    obtain ⟨w1, p, d1, hbuild, hreg1, hkeep1, hd1, _⟩ :=
      userFatalDialog_spec DLP b mem w i_id psz_title psz_text r hreg hwf
    obtain ⟨w2, r2, d2, hcall, hreg2, hc2, hkeep2, hqueue, hd2, hid2⟩ :=
      interact_frame DLP b w1 p r d1 hreg1 hc hd1
    refine ⟨w2, by simp only [stepCall, __intf_UserFatal, hbuild, hcall], ?_⟩
    exact BrokerInv.step hq hreg2 hc2 (hkeep1.trans hkeep2) hqueue hd2 hid2
  | manage p_list =>
    obtain ⟨pl, hpl, hpi⟩ := registry_playlist w r hreg
    obtain ⟨heap1, pl1, log, r1, hrun, hr1, hq1, hc1, hids⟩ :=
      manage_frame p_list w.heap pl r hpi hwf
    refine ⟨{ heap := heap1, p_playlist := some pl1 }, by simp only [stepCall, hpl, hrun],
      r1, ?_, ?_, ?_⟩
    · simp [World.registry, hr1]
    · rw [hc1]; exact hc
    · intro q hq2
      rw [hq1] at hq2
      obtain ⟨d, hd, hid⟩ := hq q hq2
      obtain ⟨d1, hd1, hid1⟩ := hids q d hd
      exact ⟨d1, hd1, by rw [hid1]; exact hid⟩

/-- A step that returns had a valid pointer argument. -/
theorem stepCall_valid (DLP : Int) (w w1 : World) (c : Call) (hinv : BrokerInv w)
    (hstep : stepCall DLP w c = some w1) : c.valid w := by
  obtain ⟨r, hreg, _, _⟩ := hinv
  cases c with
  | interact b p =>
    show p < w.heap.length
    by_contra hp
    have hnone : w.heap[p]? = none := List.getElem?_eq_none (by omega)
    simp [stepCall, __intf_Interact, get_of_registry DLP b w r hreg, hnone] at hstep
  | alloc d => trivial
  | userFatal b mem i_id psz_title psz_text => trivial
  | manage p_list => trivial

theorem runCalls_inv (DLP : Int) :
    ∀ (calls : List Call) (w w1 : World), BrokerInv w →
      runCalls DLP w calls = some w1 → BrokerInv w1 := by
  intro calls
  induction calls with
  | nil =>
    intro w w1 hinv hrun
    simp only [runCalls, Option.some.injEq] at hrun
    rw [← hrun]; exact hinv
  | cons c rest ih =>
    intro w w1 hinv hrun
    cases hstep : stepCall DLP w c with
    | none => simp [runCalls, hstep] at hrun
    | some w2 =>
      obtain ⟨w3, hstep3, hinv3⟩ := stepCall_inv DLP w c hinv (stepCall_valid DLP w w2 c hinv hstep)
      rw [hstep] at hstep3
      cases hstep3
      simp only [runCalls, hstep] at hrun
      exact ih w2 w1 hinv3 hrun

theorem BrokerInv.fresh (DLP : Int) (hDLP : 0 ≤ DLP) (heap : Heap) :
    BrokerInv (freshWorld DLP heap) := by
  refine ⟨{ pp_dialogs := [], p_intf := none, i_last_id := DLP + 1 }, rfl, ?_, ?_⟩
  · show 1 ≤ DLP + 1
    omega
  · intro p hp
    cases hp

theorem BrokerInv.queueIdsNonzero {w : World} (hinv : BrokerInv w) : QueueIdsNonzero w := by
  obtain ⟨r, hreg, _, hq⟩ := hinv
  intro x hx
  simp only [queueIds, hreg, List.mem_map] at hx
  obtain ⟨p, hp, hxp⟩ := hx
  obtain ⟨d, hd, hid⟩ := hq p hp
  rw [hd] at hxp
  subst hxp
  constructor
  · simp
  · simpa using hid

/-- C9: with `DIALOG_LAST_PREDEFINED >= 0` and ids as unbounded integers, after
any sequence of producer allocations and of calls of `__intf_Interact`,
`__intf_UserFatal` and `intf_InteractionManage` that starts on a freshly
initialised registry, every queue entry points to a dialog whose id is not 0;
and from the memory reached every further call with a valid dialog pointer
returns and leaves such a queue again. -/
theorem C9_queue_ids_nonzero (DLP : Int) (hDLP : 0 ≤ DLP) (heap : Heap)
    (calls : List Call) (w : World)
    (hrun : runCalls DLP (freshWorld DLP heap) calls = some w) :
    QueueIdsNonzero w ∧
      ∀ c : Call, c.valid w → ∃ w1, stepCall DLP w c = some w1 ∧ QueueIdsNonzero w1 := by
  have hinv : BrokerInv w :=
    runCalls_inv DLP calls (freshWorld DLP heap) w (BrokerInv.fresh DLP hDLP heap) hrun
  refine ⟨hinv.queueIdsNonzero, ?_⟩
  intro c hv
  obtain ⟨w1, hstep, hinv1⟩ := stepCall_inv DLP w c hinv hv
  exact ⟨w1, hstep, hinv1.queueIdsNonzero⟩

/-- C9, at `DIALOG_LAST_PREDEFINED = 4` and the run `sampleCalls`. -/
theorem C9_queue_ids_nonzero_witness :
    (0 : Int) ≤ 4 ∧ runCalls 4 (freshWorld 4 []) sampleCalls = some sampleCallsEnd ∧
    queueIds sampleCallsEnd = [some 6, some 7] ∧
    (QueueIdsNonzero sampleCallsEnd ∧
      ∀ c : Call, c.valid sampleCallsEnd →
        ∃ w1, stepCall 4 sampleCallsEnd c = some w1 ∧ QueueIdsNonzero w1) :=
  ⟨by decide, rfl, rfl, C9_queue_ids_nonzero 4 (by decide) [] sampleCalls sampleCallsEnd rfl⟩

/-! ## Appending to the queue -/

/-- C12: for a registry and a valid pointer to a dialog that is not of type
`INTERACT_ASK`, `__intf_Interact` returns `VLC_SUCCESS` and the queue after the
call is the queue before it with the pointer appended: the count grows by one,
every earlier position holds the entry it held, the last position holds the
dialog, and no heap object other than the submitted one changes. -/
theorem C12_non_ask_dialog_appended (DLP : Int) (b_create : Bool) (w : World) (p : Nat)
    (r : interaction_t) (d : interaction_dialog_t)
    (hreg : w.registry = some r) (hd : w.heap[p]? = some d)
    (hty : d.i_type ≠ .INTERACT_ASK) :
    ∃ w1 r1, __intf_Interact DLP b_create w p = some (w1, VLC_SUCCESS) ∧
      w1.registry = some r1 ∧
      r1.pp_dialogs = r.pp_dialogs ++ [p] ∧
      r1.i_dialogs = r.i_dialogs + 1 ∧
      (∀ i, i < r.i_dialogs → r1.pp_dialogs[i]? = r.pp_dialogs[i]?) ∧
      r1.pp_dialogs[r.i_dialogs]? = some p ∧
      (∀ a, a ≠ p → w1.heap[a]? = w.heap[a]?) ∧
      w1.heap[p]? = some (if d.i_id = 0 then { d with i_id := r.i_last_id + 1 } else d) := by
  obtain ⟨w1, hcall, hheap, hreg1⟩ := interact_spec DLP b_create w p r d hreg hd
  have hp : p < w.heap.length := (List.getElem?_eq_some.mp hd).1
  simp only [hty, if_false] at hreg1
  refine ⟨w1, _, hcall, hreg1, rfl, ?_, ?_, ?_, ?_, ?_⟩
  · simp [interaction_t.i_dialogs]
  · intro i hi
    exact List.getElem?_append_left hi
  · simp [interaction_t.i_dialogs]
  · intro a ha
    rw [hheap]
    split
    · exact List.getElem?_set_ne (fun e => ha e.symm)
    · rfl
  · rw [hheap]
    split
    · exact List.getElem?_set_self hp
    · exact hd

/-- C12, at a queue of one entry and a warning dialog of id 0. -/
theorem C12_non_ask_dialog_appended_witness :
    ∃ w1 r1,
      __intf_Interact 4 true
          { heap := [sampleDialog 6 .INTERACT_FATAL .SENT_DIALOG false,
                     sampleDialog 0 .INTERACT_WARNING .NEW_DIALOG false]
            p_playlist := some (samplePlaylist [0] 6) } 1 = some (w1, VLC_SUCCESS) ∧
      w1.registry = some r1 ∧
      r1.pp_dialogs = [0] ++ [1] ∧
      r1.i_dialogs = 1 + 1 ∧
      (∀ i, i < 1 → r1.pp_dialogs[i]? = [0][i]?) ∧
      r1.pp_dialogs[1]? = some 1 ∧
      (∀ a, a ≠ 1 →
        w1.heap[a]? = [sampleDialog 6 .INTERACT_FATAL .SENT_DIALOG false,
                       sampleDialog 0 .INTERACT_WARNING .NEW_DIALOG false][a]?) ∧
      w1.heap[1]? = some (sampleDialog 7 .INTERACT_WARNING .NEW_DIALOG false) :=
  C12_non_ask_dialog_appended 4 true
    { heap := [sampleDialog 6 .INTERACT_FATAL .SENT_DIALOG false,
               sampleDialog 0 .INTERACT_WARNING .NEW_DIALOG false]
      p_playlist := some (samplePlaylist [0] 6) } 1
    { pp_dialogs := [0], p_intf := none, i_last_id := 6 }
    (sampleDialog 0 .INTERACT_WARNING .NEW_DIALOG false) rfl rfl (by decide)

/-- C13: the code at the failing input.  On a fresh registry `__intf_Interact`
on a dialog of type `INTERACT_ASK` and id 0 returns `VLC_SUCCESS` and gives the
dialog the id 6, but the queue stays empty: `intf_WaitAnswer` adds nothing. -/
theorem C13_ask_dialog_not_enqueued :
    __intf_Interact 4 true (freshWorld 4 [sampleDialog 0 .INTERACT_ASK .NEW_DIALOG false]) 0
      = some ({ heap := [sampleDialog 6 .INTERACT_ASK .NEW_DIALOG false]
                p_playlist := some (samplePlaylist [] 6) }, VLC_SUCCESS) := rfl

/-! ## Interface resolution -/

theorem searchLoop_none_eq_find (l : List intf_thread_t) :
    searchLoop l none = l.find? (fun i => i.b_interaction) := by
  induction l with
  | nil => rfl
  | cons i rest ih =>
    by_cases hi : i.b_interaction = true
    · simp [searchLoop, hi]
    · simp [searchLoop, hi, ih]

theorem searchLoop_first (l : List intf_thread_t) (i : intf_thread_t)
    (h : searchLoop l none = some i) :
    ∃ pre post, l = pre ++ i :: post ∧ i.b_interaction = true ∧
      ∀ j ∈ pre, j.b_interaction = false := by
  induction l with
  | nil => simp [searchLoop] at h
  | cons j rest ih =>
    by_cases hj : j.b_interaction = true
    · simp only [searchLoop, hj, if_true, Option.some.injEq] at h
      subst h
      exact ⟨[], rest, rfl, hj, fun _ hx => by cases hx⟩
    · simp only [searchLoop, hj] at h
      obtain ⟨pre, post, hl, hi, hpre⟩ := ih h
      refine ⟨j :: pre, post, by rw [hl]; rfl, hi, ?_⟩
      intro x hx
      rcases List.mem_cons.mp hx with hx | hx
      · rw [hx]; simpa using hj
      · exact hpre x hx

/-- C14: for every list of active interfaces `intf_InteractionSearchInterface`
binds the first interface of the list, in enumeration order, whose
`b_interaction` is set; it binds none exactly when no interface of the list
has the flag set; the interface bound before the call has no influence on the
result; queue and counter are not touched. -/
theorem C14_search_binds_first_capable (l : List intf_thread_t) (r : interaction_t) :
    (intf_InteractionSearchInterface (some l) r).p_intf
        = l.find? (fun i => i.b_interaction) ∧
    (∀ i, (intf_InteractionSearchInterface (some l) r).p_intf = some i →
      ∃ pre post, l = pre ++ i :: post ∧ i.b_interaction = true ∧
        ∀ j ∈ pre, j.b_interaction = false) ∧
    ((intf_InteractionSearchInterface (some l) r).p_intf = none ↔
      ∀ i ∈ l, i.b_interaction = false) ∧
    (∀ bound, intf_InteractionSearchInterface (some l) { r with p_intf := bound }
        = intf_InteractionSearchInterface (some l) r) ∧
    (intf_InteractionSearchInterface (some l) r).pp_dialogs = r.pp_dialogs ∧
    (intf_InteractionSearchInterface (some l) r).i_last_id = r.i_last_id := by
  have hres : (intf_InteractionSearchInterface (some l) r).p_intf = searchLoop l none := rfl
  refine ⟨?_, ?_, ?_, fun _ => rfl, rfl, rfl⟩
  · rw [hres, searchLoop_none_eq_find]
  · intro i hi
    rw [hres] at hi
    exact searchLoop_first l i hi
  · rw [hres, searchLoop_none_eq_find, List.find?_eq_none]
    constructor
    · intro h i hi
      simpa using h i hi
    · intro h i hi
      simp [h i hi]

/-! ## Without a registry -/

/-- C16: the code at the failing inputs.  With no playlist found, a call on a
dialog of id 0 has no result: it dereferences the `NULL` registry at
`++p_interaction->i_last_id`.  With a playlist whose registry cannot be
created, a call on a warning dialog of id 3 has no result either: `intf_Send`
dereferences `NULL`.  With no playlist found and a dialog of type
`INTERACT_ASK` and id 3 the call returns `VLC_SUCCESS`. -/
theorem C16_missing_registry_not_checked :
    __intf_Interact 4 true
        { heap := [sampleDialog 0 .INTERACT_WARNING .NEW_DIALOG false], p_playlist := none } 0
      = none ∧
    __intf_Interact 4 false
        { heap := [sampleDialog 3 .INTERACT_WARNING .NEW_DIALOG false]
          p_playlist := some { p_interaction := none } } 0
      = none ∧
    __intf_Interact 4 true
        { heap := [sampleDialog 3 .INTERACT_ASK .NEW_DIALOG false], p_playlist := none } 0
      = some ({ heap := [sampleDialog 3 .INTERACT_ASK .NEW_DIALOG false], p_playlist := none },
              VLC_SUCCESS) :=
  ⟨rfl, rfl, rfl⟩

/-! ## The empty queue -/

/-- C18: for a registry whose queue is empty `intf_InteractionManage` returns
with an empty delivery log, whatever the interface list; heap and playlist are
what they were, so the queue, the counter and the bound interface are
unchanged: the interface resolution did not run. -/
theorem C18_empty_queue_is_noop (p_list : Option (List intf_thread_t)) (heap : Heap)
    (p_playlist : playlist_t) (r : interaction_t)
    (hreg : p_playlist.p_interaction = some r) (hempty : r.pp_dialogs = []) :
    intf_InteractionManage p_list heap p_playlist = some (heap, p_playlist, []) := by
  have h0 : r.i_dialogs = 0 := by simp [interaction_t.i_dialogs, hempty]
  simp only [intf_InteractionManage, hreg, h0, if_true]

/-- C18, at an empty queue with a stale binding and a list holding a capable
interface: the binding stays. -/
theorem C18_empty_queue_is_noop_witness :
    intf_InteractionManage (some [sampleIntf])
        [sampleDialog 0 .INTERACT_FATAL .NEW_DIALOG false]
        { p_interaction := some { pp_dialogs := [], p_intf := some plainIntf, i_last_id := 5 } }
      = some ([sampleDialog 0 .INTERACT_FATAL .NEW_DIALOG false],
              { p_interaction :=
                  some { pp_dialogs := [], p_intf := some plainIntf, i_last_id := 5 } }, []) :=
  C18_empty_queue_is_noop (some [sampleIntf])
    [sampleDialog 0 .INTERACT_FATAL .NEW_DIALOG false]
    { p_interaction := some { pp_dialogs := [], p_intf := some plainIntf, i_last_id := 5 } }
    { pp_dialogs := [], p_intf := some plainIntf, i_last_id := 5 } rfl rfl

/-! ## The dialog built by the fatal-message helper -/

/-- Lines 204-232 of `__intf_UserFatal`, in full: the playlist is untouched, the
heap does not shrink, and the dialog handed on has type `INTERACT_FATAL`; it is
either a new object whose only widget is the text, or the queued object of the
id, with the text appended to its widgets. -/
theorem userFatalDialog_shape (DLP : Int) (b : Bool) (mem : interaction_dialog_t) (w : World)
    (i_id : Int) (psz_title psz_text : String)
    (hq : 0 < i_id → ∃ r, w.registry = some r ∧ ∀ q ∈ r.pp_dialogs, q < w.heap.length) :
    ∃ w1 p d1, userFatalDialog DLP b mem w i_id psz_title psz_text = some (w1, p) ∧
      w1.p_playlist = w.p_playlist ∧ w.heap.length ≤ w1.heap.length ∧
      w1.heap[p]? = some d1 ∧ d1.i_type = .INTERACT_FATAL ∧
      ((w.heap[p]? = none ∧ d1.pp_widgets = [⟨.WIDGET_TEXT, psz_text⟩]) ∨
       (∃ d : interaction_dialog_t, w.heap[p]? = some d ∧ 0 < i_id ∧ d.i_id = i_id ∧
          d1.pp_widgets = d.pp_widgets ++ [⟨.WIDGET_TEXT, psz_text⟩])) := by
  have hlast : ∀ d0 d1 : interaction_dialog_t,
      ((w.heap ++ [d0]).set w.heap.length d1)[w.heap.length]? = some d1 :=
    fun d0 d1 => List.getElem?_set_self (by simp)
  have hnone : w.heap[w.heap.length]? = none := List.getElem?_eq_none (Nat.le_refl _)
  by_cases hpos : i_id > 0
  · obtain ⟨r, hreg, hwf⟩ := hq hpos
    have hget := get_of_registry DLP b w r hreg
    obtain ⟨found, hloop, hfound⟩ := getByIdLoop_spec w.heap i_id r.pp_dialogs hwf
    cases found with
    | none =>
      simp only [userFatalDialog, hpos, if_true, intf_InteractionGetById, hget, hloop,
        heapUpdate, List.getElem?_concat_length]
      refine ⟨_, _, _, rfl, rfl, ?_, hlast _ _, rfl, Or.inl ⟨hnone, ?_⟩⟩
      · simp
      · simp [INSERT_ELEM, INTERACT_INIT]
    | some p =>
      obtain ⟨d, hd, hdid⟩ := hfound p rfl
      have hp : p < w.heap.length := (List.getElem?_eq_some.mp hd).1
      have hd2 : (w.heap.set p { d with i_status := .UPDATED_DIALOG })[p]?
          = some { d with i_status := .UPDATED_DIALOG } := List.getElem?_set_self hp
      simp only [userFatalDialog, hpos, if_true, intf_InteractionGetById, hget, hloop,
        heapUpdate, hd, hd2]
      refine ⟨_, _, _, rfl, rfl, ?_, List.getElem?_set_self (by simpa using hp), rfl,
        Or.inr ⟨d, hd, trivial, hdid, ?_⟩⟩
      · simp
      · simp [INSERT_ELEM]
  · simp only [userFatalDialog, hpos, if_false, heapUpdate, List.getElem?_concat_length]
    refine ⟨_, _, _, rfl, rfl, ?_, hlast _ _, rfl, Or.inl ⟨hnone, ?_⟩⟩
    · simp
    · simp [INSERT_ELEM, INTERACT_INIT]

/-- C15, as the claim states it, fails: after one `__intf_UserFatal` with the id
2 on a fresh registry, a second call with the same id hands on the queued
dialog, and its widget list is not the one text widget of the message. -/
theorem C15_single_widget_counterexample :
    __intf_UserFatal 4 true (sampleDialog 0 .INTERACT_NOTIFY .NEW_DIALOG false)
        (freshWorld 4 []) 2 "Error" "disk full" = some fatalOnceWorld ∧
    ¬ ∃ w1 p d1,
        userFatalDialog 4 true (sampleDialog 0 .INTERACT_NOTIFY .NEW_DIALOG false)
            fatalOnceWorld 2 "Error" "no space" = some (w1, p) ∧
        w1.heap[p]? = some d1 ∧ d1.i_type = .INTERACT_FATAL ∧
        d1.pp_widgets = [⟨.WIDGET_TEXT, "no space"⟩] := by
  refine ⟨rfl, ?_⟩
  rintro ⟨w1, p, d1, hcall, hd1, _, hw⟩
  have hrun : userFatalDialog 4 true (sampleDialog 0 .INTERACT_NOTIFY .NEW_DIALOG false)
      fatalOnceWorld 2 "Error" "no space"
      = some ({ heap :=
                  [{ sampleDialog 2 .INTERACT_FATAL .UPDATED_DIALOG false with
                       psz_title := some "Error"
                       pp_widgets := [{ i_type := .WIDGET_TEXT, psz_text := "disk full" },
                                      { i_type := .WIDGET_TEXT, psz_text := "no space" }] }]
                p_playlist := some (samplePlaylist [0] 5) }, 0) := rfl
  rw [hrun] at hcall
  cases hcall
  simp only [List.getElem?_cons_zero, Option.some.injEq] at hd1
  subst hd1
  have hlen := congrArg List.length hw
  simp at hlen

theorem get_heap (DLP : Int) (b : Bool) (w : World) :
    (intf_InteractionGet DLP b w).1.heap = w.heap := by
  unfold intf_InteractionGet
  cases w.p_playlist <;> rfl

/-- The loop of `intf_InteractionGetById` on a queue of valid pointers returns
`NULL` exactly when no queued dialog has the id, and else the first queue entry
whose dialog has it. -/
theorem getByIdLoop_first (heap : Heap) (i_id : Int) :
    ∀ q : List Nat, (∀ p ∈ q, p < heap.length) →
      ∃ found, getByIdLoop heap i_id q = some found ∧
        (found = none →
          ∀ p ∈ q, ∀ d : interaction_dialog_t, heap[p]? = some d → d.i_id ≠ i_id) ∧
        (∀ p, found = some p →
          ∃ (pre post : List Nat) (d : interaction_dialog_t), q = pre ++ p :: post ∧
            (∀ p1 ∈ pre, ∀ d1 : interaction_dialog_t, heap[p1]? = some d1 → d1.i_id ≠ i_id) ∧
            heap[p]? = some d ∧ d.i_id = i_id) := by
  intro q
  induction q with
  | nil =>
    intro _
    refine ⟨none, rfl, ?_, ?_⟩
    · intro _ p hp
      cases hp
    · intro p hp
      cases hp
  | cons a rest ih =>
    intro hwf
    have ha : a < heap.length := hwf a (List.mem_cons_self _ _)
    have hget : heap[a]? = some heap[a] := List.getElem?_eq_getElem ha
    by_cases hid : heap[a].i_id = i_id
    · refine ⟨some a, by simp only [getByIdLoop, hget, hid, if_true], ?_, ?_⟩
      · intro h; cases h
      · intro p hp
        cases hp
        refine ⟨[], rest, heap[a], rfl, ?_, hget, hid⟩
        intro p1 hp1
        cases hp1
    · obtain ⟨found, hrun, hnone, hsome⟩ :=
        ih (fun x hx => hwf x (List.mem_cons_of_mem _ hx))
      refine ⟨found, by simp only [getByIdLoop, hget, hid, if_false, hrun], ?_, ?_⟩
      · intro hf p hp d hd
        rcases List.mem_cons.mp hp with h | h
        · subst h
          rw [hget] at hd
          cases hd
          exact hid
        · exact hnone hf p h d hd
      · intro p hp
        obtain ⟨pre, post, d, hq, hpre, hd, hdid⟩ := hsome p hp
        refine ⟨a :: pre, post, d, by rw [hq]; rfl, ?_, hd, hdid⟩
        intro p1 hp1 d1 hd1
        rcases List.mem_cons.mp hp1 with h | h
        · subst h
          rw [hget] at hd1
          cases hd1
          exact hid
        · exact hpre p1 h d1 hd1

theorem userFatal_eq (DLP : Int) (b : Bool) (mem : interaction_dialog_t) (w w1 : World)
    (i_id : Int) (psz_title psz_text : String) (p : Nat)
    (h : userFatalDialog DLP b mem w i_id psz_title psz_text = some (w1, p)) :
    __intf_UserFatal DLP b mem w i_id psz_title psz_text
      = (__intf_Interact DLP b w1 p).map Prod.fst := by
  simp only [__intf_UserFatal, h]
  cases __intf_Interact DLP b w1 p with
  | none => rfl
  | some res => rfl

/-- Lines 204-232 of `__intf_UserFatal`, case by case: without a positive id,
or when no queued dialog has the id, a new object is built behind the heap with
the one text widget; when a queued dialog has the id, the first such queue
entry is handed on, updated, with the text widget behind its widgets. -/
theorem userFatalDialog_exact (DLP : Int) (b : Bool) (mem : interaction_dialog_t) (w : World)
    (i_id : Int) (psz_title psz_text : String)
    (hq : 0 < i_id → ∃ r, (intf_InteractionGet DLP b w).2 = some r ∧
      ∀ q ∈ r.pp_dialogs, q < w.heap.length) :
    ∃ w1 p_new d1,
      userFatalDialog DLP b mem w i_id psz_title psz_text = some (w1, p_new) ∧
      w1.heap[p_new]? = some d1 ∧ d1.i_type = .INTERACT_FATAL ∧
      ((i_id : Int) ≤ 0 →
        p_new = w.heap.length ∧
        d1 = { INTERACT_INIT mem with
                i_type := .INTERACT_FATAL, psz_title := some psz_title,
                pp_widgets := [⟨.WIDGET_TEXT, psz_text⟩] }) ∧
      (∀ r : interaction_t, (0 : Int) < i_id →
        (intf_InteractionGet DLP b w).2 = some r →
        ((∀ q ∈ r.pp_dialogs, ∀ dq : interaction_dialog_t,
            w.heap[q]? = some dq → dq.i_id ≠ i_id) →
          p_new = w.heap.length ∧
          d1 = { INTERACT_INIT mem with
                  i_id := i_id, i_type := .INTERACT_FATAL, psz_title := some psz_title,
                  pp_widgets := [⟨.WIDGET_TEXT, psz_text⟩] }) ∧
        ((∃ q ∈ r.pp_dialogs, ∃ dq : interaction_dialog_t,
            w.heap[q]? = some dq ∧ dq.i_id = i_id) →
          ∃ (pre post : List Nat) (d : interaction_dialog_t),
            r.pp_dialogs = pre ++ p_new :: post ∧
            (∀ q ∈ pre, ∀ dq : interaction_dialog_t,
              w.heap[q]? = some dq → dq.i_id ≠ i_id) ∧
            w.heap[p_new]? = some d ∧ d.i_id = i_id ∧
            d1 = { d with
                    i_status := .UPDATED_DIALOG, i_type := .INTERACT_FATAL,
                    psz_title := some psz_title,
                    pp_widgets := d.pp_widgets ++ [⟨.WIDGET_TEXT, psz_text⟩] })) := by
  have hheap := get_heap DLP b w
  have hlast : ∀ d0 d1 : interaction_dialog_t,
      ((w.heap ++ [d0]).set w.heap.length d1)[w.heap.length]? = some d1 :=
    fun d0 d1 => List.getElem?_set_self (by simp)
  by_cases hpos : i_id > 0
  · obtain ⟨r, hr, hwf⟩ := hq hpos
    obtain ⟨found, hloop, hnone, hsome⟩ := getByIdLoop_first w.heap i_id r.pp_dialogs hwf
    cases found with
    | none =>
      simp only [userFatalDialog, hpos, if_true, intf_InteractionGetById, hr, hheap, hloop,
        heapUpdate, List.getElem?_concat_length]
      refine ⟨_, _, _, rfl, hlast _ _, rfl, fun h => absurd hpos (by omega), ?_⟩
      intro r1 _ hr1
      refine ⟨fun _ => ⟨rfl, rfl⟩, ?_⟩
      rintro ⟨q, hq1, dq, hdq, hdid⟩
      have hrr : r1 = r := (Option.some.inj hr1).symm
      subst hrr
      exact absurd hdid (hnone rfl q hq1 dq hdq)
    | some p =>
      obtain ⟨pre, post, d, hqueue, hpre, hd, hdid⟩ := hsome p rfl
      have hp : p < w.heap.length := (List.getElem?_eq_some.mp hd).1
      have hd2 : (w.heap.set p { d with i_status := .UPDATED_DIALOG })[p]?
          = some { d with i_status := .UPDATED_DIALOG } := List.getElem?_set_self hp
      simp only [userFatalDialog, hpos, if_true, intf_InteractionGetById, hr, hheap, hloop,
        heapUpdate, hd, hd2]
      refine ⟨_, _, _, rfl, List.getElem?_set_self (by simpa using hp), rfl,
        fun h => absurd hpos (by omega), ?_⟩
      intro r1 _ hr1
      have hrr : r1 = r := (Option.some.inj hr1).symm
      subst hrr
      have hmem : p ∈ r1.pp_dialogs := by
        rw [hqueue]; simp
      refine ⟨fun hno => absurd hdid (hno p hmem d hd), fun _ => ?_⟩
      exact ⟨pre, post, d, hqueue, hpre, hd, hdid, by simp [INSERT_ELEM_length]⟩
  · simp only [userFatalDialog, hpos, if_false, heapUpdate, List.getElem?_concat_length]
    refine ⟨_, _, _, rfl, hlast _ _, rfl, fun _ => ⟨rfl, rfl⟩, ?_⟩
    intro r1 h1
    exact h1.elim

/-- C15, amended: for every call of `__intf_UserFatal` (when the id is positive,
`intf_InteractionGet` yields a registry, created on this call if need be, whose
queue holds valid pointers), the dialog handed to `__intf_Interact` has type
`INTERACT_FATAL`.  With an id `<= 0`, or a positive id that no queued dialog
has, it is a newly built object whose widget list is exactly one text widget
holding the formatted message.  With a positive id that a queued dialog has, it
is the first queue entry with that id, set to `UPDATED_DIALOG`, and the text
widget is appended after the widgets that dialog already had. -/
theorem C15_fatal_dialog_text_appended (DLP : Int) (b_create : Bool)
    (mem : interaction_dialog_t) (w : World) (i_id : Int) (psz_title psz_text : String)
    (hq : 0 < i_id → ∃ r, (intf_InteractionGet DLP b_create w).2 = some r ∧
      ∀ q ∈ r.pp_dialogs, q < w.heap.length) :
    ∃ w1 p_new d1,
      userFatalDialog DLP b_create mem w i_id psz_title psz_text = some (w1, p_new) ∧
      __intf_UserFatal DLP b_create mem w i_id psz_title psz_text
        = (__intf_Interact DLP b_create w1 p_new).map Prod.fst ∧
      w1.heap[p_new]? = some d1 ∧ d1.i_type = .INTERACT_FATAL ∧
      ((i_id : Int) ≤ 0 →
        p_new = w.heap.length ∧
        d1 = { INTERACT_INIT mem with
                i_type := .INTERACT_FATAL, psz_title := some psz_title,
                pp_widgets := [⟨.WIDGET_TEXT, psz_text⟩] }) ∧
      (∀ r : interaction_t, (0 : Int) < i_id →
        (intf_InteractionGet DLP b_create w).2 = some r →
        ((∀ q ∈ r.pp_dialogs, ∀ dq : interaction_dialog_t,
            w.heap[q]? = some dq → dq.i_id ≠ i_id) →
          p_new = w.heap.length ∧
          d1 = { INTERACT_INIT mem with
                  i_id := i_id, i_type := .INTERACT_FATAL, psz_title := some psz_title,
                  pp_widgets := [⟨.WIDGET_TEXT, psz_text⟩] }) ∧
        ((∃ q ∈ r.pp_dialogs, ∃ dq : interaction_dialog_t,
            w.heap[q]? = some dq ∧ dq.i_id = i_id) →
          ∃ (pre post : List Nat) (d : interaction_dialog_t),
            r.pp_dialogs = pre ++ p_new :: post ∧
            (∀ q ∈ pre, ∀ dq : interaction_dialog_t,
              w.heap[q]? = some dq → dq.i_id ≠ i_id) ∧
            w.heap[p_new]? = some d ∧ d.i_id = i_id ∧
            d1 = { d with
                    i_status := .UPDATED_DIALOG, i_type := .INTERACT_FATAL,
                    psz_title := some psz_title,
                    pp_widgets := d.pp_widgets ++ [⟨.WIDGET_TEXT, psz_text⟩] })) := by
  obtain ⟨w1, p, d1, hcall, hrest⟩ :=
    userFatalDialog_exact DLP b_create mem w i_id psz_title psz_text hq
  exact ⟨w1, p, d1, hcall,
    userFatal_eq DLP b_create mem w w1 i_id psz_title psz_text p hcall, hrest⟩

/-- C15 amended, at the first call with the id 2 on a playlist that has no
registry yet, and at a second call with the id 2 after it. -/
theorem C15_fatal_dialog_text_appended_witness :
    (userFatalDialog 4 true (sampleDialog 0 .INTERACT_NOTIFY .NEW_DIALOG false) lazyWorld 2 "Error" "disk full").map
        (fun res => (res.2, res.1.heap[res.2]?.map (fun d => d.pp_widgets.length)))
      = some (0, some 1) ∧
    (userFatalDialog 4 true (sampleDialog 0 .INTERACT_NOTIFY .NEW_DIALOG false) fatalOnceWorld 2 "Error" "no space").map
        (fun res => (res.2, res.1.heap[res.2]?.map (fun d => d.pp_widgets.length)))
      = some (0, some 2) ∧
    (∃ w1 p_new d1,
      userFatalDialog 4 true (sampleDialog 0 .INTERACT_NOTIFY .NEW_DIALOG false) lazyWorld 2 "Error" "disk full" = some (w1, p_new) ∧
      __intf_UserFatal 4 true (sampleDialog 0 .INTERACT_NOTIFY .NEW_DIALOG false) lazyWorld 2 "Error" "disk full"
        = (__intf_Interact 4 true w1 p_new).map Prod.fst ∧
      w1.heap[p_new]? = some d1 ∧ d1.i_type = .INTERACT_FATAL ∧
      ((2 : Int) ≤ 0 →
        p_new = lazyWorld.heap.length ∧
        d1 = { INTERACT_INIT (sampleDialog 0 .INTERACT_NOTIFY .NEW_DIALOG false) with
                i_type := .INTERACT_FATAL, psz_title := some "Error",
                pp_widgets := [⟨.WIDGET_TEXT, "disk full"⟩] }) ∧
      (∀ r : interaction_t, (0 : Int) < 2 →
        (intf_InteractionGet 4 true lazyWorld).2 = some r →
        ((∀ q ∈ r.pp_dialogs, ∀ dq : interaction_dialog_t,
            lazyWorld.heap[q]? = some dq → dq.i_id ≠ 2) →
          p_new = lazyWorld.heap.length ∧
          d1 = { INTERACT_INIT (sampleDialog 0 .INTERACT_NOTIFY .NEW_DIALOG false) with
                  i_id := 2, i_type := .INTERACT_FATAL, psz_title := some "Error",
                  pp_widgets := [⟨.WIDGET_TEXT, "disk full"⟩] }) ∧
        ((∃ q ∈ r.pp_dialogs, ∃ dq : interaction_dialog_t,
            lazyWorld.heap[q]? = some dq ∧ dq.i_id = 2) →
          ∃ (pre post : List Nat) (d : interaction_dialog_t),
            r.pp_dialogs = pre ++ p_new :: post ∧
            (∀ q ∈ pre, ∀ dq : interaction_dialog_t,
              lazyWorld.heap[q]? = some dq → dq.i_id ≠ 2) ∧
            lazyWorld.heap[p_new]? = some d ∧ d.i_id = 2 ∧
            d1 = { d with
                    i_status := .UPDATED_DIALOG, i_type := .INTERACT_FATAL,
                    psz_title := some "Error",
                    pp_widgets := d.pp_widgets ++ [⟨.WIDGET_TEXT, "disk full"⟩] }))) ∧
    (∃ w1 p_new d1,
      userFatalDialog 4 true (sampleDialog 0 .INTERACT_NOTIFY .NEW_DIALOG false) fatalOnceWorld 2 "Error" "no space" = some (w1, p_new) ∧
      __intf_UserFatal 4 true (sampleDialog 0 .INTERACT_NOTIFY .NEW_DIALOG false) fatalOnceWorld 2 "Error" "no space"
        = (__intf_Interact 4 true w1 p_new).map Prod.fst ∧
      w1.heap[p_new]? = some d1 ∧ d1.i_type = .INTERACT_FATAL ∧
      ((2 : Int) ≤ 0 →
        p_new = fatalOnceWorld.heap.length ∧
        d1 = { INTERACT_INIT (sampleDialog 0 .INTERACT_NOTIFY .NEW_DIALOG false) with
                i_type := .INTERACT_FATAL, psz_title := some "Error",
                pp_widgets := [⟨.WIDGET_TEXT, "no space"⟩] }) ∧
      (∀ r : interaction_t, (0 : Int) < 2 →
        (intf_InteractionGet 4 true fatalOnceWorld).2 = some r →
        ((∀ q ∈ r.pp_dialogs, ∀ dq : interaction_dialog_t,
            fatalOnceWorld.heap[q]? = some dq → dq.i_id ≠ 2) →
          p_new = fatalOnceWorld.heap.length ∧
          d1 = { INTERACT_INIT (sampleDialog 0 .INTERACT_NOTIFY .NEW_DIALOG false) with
                  i_id := 2, i_type := .INTERACT_FATAL, psz_title := some "Error",
                  pp_widgets := [⟨.WIDGET_TEXT, "no space"⟩] }) ∧
        ((∃ q ∈ r.pp_dialogs, ∃ dq : interaction_dialog_t,
            fatalOnceWorld.heap[q]? = some dq ∧ dq.i_id = 2) →
          ∃ (pre post : List Nat) (d : interaction_dialog_t),
            r.pp_dialogs = pre ++ p_new :: post ∧
            (∀ q ∈ pre, ∀ dq : interaction_dialog_t,
              fatalOnceWorld.heap[q]? = some dq → dq.i_id ≠ 2) ∧
            fatalOnceWorld.heap[p_new]? = some d ∧ d.i_id = 2 ∧
            d1 = { d with
                    i_status := .UPDATED_DIALOG, i_type := .INTERACT_FATAL,
                    psz_title := some "Error",
                    pp_widgets := d.pp_widgets ++ [⟨.WIDGET_TEXT, "no space"⟩] }))) :=
  ⟨rfl, rfl,
    C15_fatal_dialog_text_appended 4 true (sampleDialog 0 .INTERACT_NOTIFY .NEW_DIALOG false) lazyWorld 2 "Error" "disk full"
      (fun _ => ⟨{ pp_dialogs := [], p_intf := none, i_last_id := 5 }, rfl, by decide⟩),
    C15_fatal_dialog_text_appended 4 true (sampleDialog 0 .INTERACT_NOTIFY .NEW_DIALOG false) fatalOnceWorld 2 "Error" "no space"
      (fun _ => ⟨{ pp_dialogs := [0], p_intf := none, i_last_id := 5 }, rfl, by decide⟩)⟩

/-! ## The counter stays above the predefined ids -/

theorem registry_of_playlist_eq {w w1 : World} (h : w1.p_playlist = w.p_playlist) :
    w1.registry = w.registry := by
  unfold World.registry
  rw [h]

/-- Every step that returns keeps the counter at or above
`DIALOG_LAST_PREDEFINED + 1` and the queue entries valid. -/
theorem stepCall_counter (DLP : Int) (w w1 : World) (c : Call) (hinv : CounterInv DLP w)
    (hstep : stepCall DLP w c = some w1) : CounterInv DLP w1 := by
  obtain ⟨r, hreg, hc, hwf⟩ := hinv
  cases c with
  | alloc d =>
    simp only [stepCall, Option.some.injEq] at hstep
    subst hstep
    refine ⟨r, by rw [← hreg]; exact registry_of_playlist_eq rfl, hc, ?_⟩
    intro q hq
    have := hwf q hq
    simp only [List.length_append, List.length_singleton]
    omega
  | interact b p =>
    cases hd : w.heap[p]? with
    | none =>
      simp [stepCall, __intf_Interact, get_of_registry DLP b w r hreg, hd] at hstep
    | some d =>
      obtain ⟨w2, hcall, hheap, hreg2⟩ := interact_spec DLP b w p r d hreg hd
      simp only [stepCall, hcall, Option.some.injEq] at hstep
      subst hstep
      have hp : p < w.heap.length := (List.getElem?_eq_some.mp hd).1
      have hlen : w2.heap.length = w.heap.length := by
        rw [hheap]; split <;> simp
      refine ⟨_, hreg2, ?_, ?_⟩
      · show DLP + 1 ≤ (if d.i_id = 0 then r.i_last_id + 1 else r.i_last_id)
        split <;> omega
      · intro q hq
        rw [hlen]
        have hq1 : q ∈ (if d.i_type = .INTERACT_ASK then r.pp_dialogs
            else r.pp_dialogs ++ [p]) := hq
        split at hq1
        · exact hwf q hq1
        · rcases List.mem_append.mp hq1 with h | h
          · exact hwf q h
          · rw [List.mem_singleton.mp h]; exact hp
  | userFatal b mem i_id psz_title psz_text =>
    obtain ⟨w2, p, d1, hbuild, hpl, hlen, hd1, _, _⟩ :=
      userFatalDialog_shape DLP b mem w i_id psz_title psz_text (fun _ => ⟨r, hreg, hwf⟩)
    have hreg2 : w2.registry = some r := by
      rw [registry_of_playlist_eq hpl]; exact hreg
    obtain ⟨w3, hcall, hheap, hreg3⟩ := interact_spec DLP b w2 p r d1 hreg2 hd1
    simp only [stepCall, __intf_UserFatal, hbuild, hcall, Option.some.injEq] at hstep
    subst hstep
    have hp : p < w2.heap.length := (List.getElem?_eq_some.mp hd1).1
    have hlen3 : w3.heap.length = w2.heap.length := by
      rw [hheap]; split <;> simp
    refine ⟨_, hreg3, ?_, ?_⟩
    · show DLP + 1 ≤ (if d1.i_id = 0 then r.i_last_id + 1 else r.i_last_id)
      split <;> omega
    · intro q hq
      rw [hlen3]
      have hq1 : q ∈ (if d1.i_type = .INTERACT_ASK then r.pp_dialogs
          else r.pp_dialogs ++ [p]) := hq
      split at hq1
      · have := hwf q hq1
        omega
      · rcases List.mem_append.mp hq1 with h | h
        · have := hwf q h
          omega
        · rw [List.mem_singleton.mp h]; exact hp
  | manage p_list =>
    obtain ⟨pl, hpl, hpi⟩ := registry_playlist w r hreg
    obtain ⟨heap1, pl1, log, r1, hrun, hr1, hq1, hc1, hids⟩ :=
      manage_frame p_list w.heap pl r hpi hwf
    simp only [stepCall, hpl, hrun, Option.some.injEq] at hstep
    subst hstep
    refine ⟨r1, by simp [World.registry, hr1], by rw [hc1]; exact hc, ?_⟩
    intro q hq
    rw [hq1] at hq
    have hq2 : q < w.heap.length := hwf q hq
    obtain ⟨d1, hd1, _⟩ := hids q w.heap[q] (List.getElem?_eq_getElem hq2)
    exact (List.getElem?_eq_some.mp hd1).1

theorem runCalls_counter (DLP : Int) :
    ∀ (calls : List Call) (w w1 : World), CounterInv DLP w →
      runCalls DLP w calls = some w1 → CounterInv DLP w1 := by
  intro calls
  induction calls with
  | nil =>
    intro w w1 hinv hrun
    simp only [runCalls, Option.some.injEq] at hrun
    rw [← hrun]; exact hinv
  | cons c rest ih =>
    intro w w1 hinv hrun
    cases hstep : stepCall DLP w c with
    | none => simp [runCalls, hstep] at hrun
    | some w2 =>
      simp only [runCalls, hstep] at hrun
      exact ih w2 w1 (stepCall_counter DLP w w2 c hinv hstep) hrun

/-- C17: with ids as unbounded integers, in every memory reached from a freshly
initialised registry by a sequence of producer allocations and of calls of the
entry points, `__intf_Interact` on a valid pointer to a dialog of id 0 returns
`VLC_SUCCESS` and the id it assigns is strictly greater than
`DIALOG_LAST_PREDEFINED`. -/
theorem C17_auto_ids_above_predefined (DLP : Int) (heap : Heap) (calls : List Call)
    (w : World) (hrun : runCalls DLP (freshWorld DLP heap) calls = some w)
    (b_create : Bool) (p : Nat) (d : interaction_dialog_t)
    (hd : w.heap[p]? = some d) (hid : d.i_id = 0) :
    ∃ w1 d1, __intf_Interact DLP b_create w p = some (w1, VLC_SUCCESS) ∧
      w1.heap[p]? = some d1 ∧ DLP < d1.i_id := by
  have hfresh : CounterInv DLP (freshWorld DLP heap) :=
    ⟨{ pp_dialogs := [], p_intf := none, i_last_id := DLP + 1 }, rfl, le_refl _,
      fun q hq => by cases hq⟩
  obtain ⟨r, hreg, hc, _⟩ := runCalls_counter DLP calls (freshWorld DLP heap) w hfresh hrun
  obtain ⟨w1, hcall, hheap, _⟩ := interact_spec DLP b_create w p r d hreg hd
  have hp : p < w.heap.length := (List.getElem?_eq_some.mp hd).1
  refine ⟨w1, { d with i_id := r.i_last_id + 1 }, hcall, ?_, ?_⟩
  · rw [hheap]
    simp only [hid, if_true]
    exact List.getElem?_set_self hp
  · show DLP < r.i_last_id + 1
    omega

/-- C17, at the memory after `sampleCalls` and one more allocation: the id
assigned is above 4. -/
theorem C17_auto_ids_above_predefined_witness :
    runCalls 4 (freshWorld 4 [])
        (sampleCalls ++ [Call.alloc (sampleDialog 0 .INTERACT_PROGRESS .NEW_DIALOG true)])
      = some { sampleCallsEnd with
                 heap := sampleCallsEnd.heap ++
                   [sampleDialog 0 .INTERACT_PROGRESS .NEW_DIALOG true] } ∧
    ∃ w1 d1,
      __intf_Interact 4 true
          { sampleCallsEnd with
              heap := sampleCallsEnd.heap ++
                [sampleDialog 0 .INTERACT_PROGRESS .NEW_DIALOG true] } 2
        = some (w1, VLC_SUCCESS) ∧
      w1.heap[2]? = some d1 ∧ (4 : Int) < d1.i_id :=
  ⟨rfl, C17_auto_ids_above_predefined 4 []
    (sampleCalls ++ [Call.alloc (sampleDialog 0 .INTERACT_PROGRESS .NEW_DIALOG true)])
    { sampleCallsEnd with
        heap := sampleCallsEnd.heap ++ [sampleDialog 0 .INTERACT_PROGRESS .NEW_DIALOG true] }
    rfl true 2 (sampleDialog 0 .INTERACT_PROGRESS .NEW_DIALOG true) rfl rfl⟩

/-! ## One transition per dialog and tick -/

theorem manageDialog_snd_length (p_intf : intf_thread_t) (p : Nat) (d : interaction_dialog_t) :
    (manageDialog p_intf p d).2.length ≤ 1 := by
  rcases d with ⟨i, t, ti, de, w, r, s, a⟩
  cases s <;> simp [manageDialog]

theorem manageDialog_status (p_intf : intf_thread_t) (p : Nat) (d : interaction_dialog_t) :
    (manageDialog p_intf p d).1 = d ∨
      (manageDialog p_intf p d).1.i_status = .SENT_DIALOG ∨
      (manageDialog p_intf p d).1.i_status = .HIDING_DIALOG := by
  rcases d with ⟨i, t, ti, de, w, r, s, a⟩
  cases s <;> simp [manageDialog]

theorem manageDialog_at_rest (p_intf : intf_thread_t) (p : Nat) (d : interaction_dialog_t)
    (h : d.i_status = .SENT_DIALOG ∨ d.i_status = .HIDING_DIALOG) :
    manageDialog p_intf p d = (d, []) := by
  rcases h with h | h <;> simp only [manageDialog, h]

/-- C19: in one `intf_InteractionManage` call on a registry whose queue holds
valid pointers, however often an object occurs in the queue, every object of
the heap is either left as it was, with no delivery, or rewritten by exactly
one application of the `switch`, with the deliveries of that one application,
at most one; a status the `switch` writes is `SENT_DIALOG` or `HIDING_DIALOG`,
and on a dialog of such a status the `switch` changes nothing and delivers
nothing. -/
theorem C19_one_transition_per_dialog (p_list : Option (List intf_thread_t)) (heap : Heap)
    (p_playlist : playlist_t) (r : interaction_t)
    (hreg : p_playlist.p_interaction = some r)
    (hwf : ∀ q ∈ r.pp_dialogs, q < heap.length) :
    (∃ heap1 p_playlist1 log,
      intf_InteractionManage p_list heap p_playlist = some (heap1, p_playlist1, log) ∧
      ∀ (a : Nat) (d : interaction_dialog_t), heap[a]? = some d →
        (deliveriesFor a log).length ≤ 1 ∧
        ∃ d1 : interaction_dialog_t, heap1[a]? = some d1 ∧
          ((d1 = d ∧ deliveriesFor a log = []) ∨
           (∃ p_intf, d1 = (manageDialog p_intf a d).1 ∧
              deliveriesFor a log = (manageDialog p_intf a d).2))) ∧
    (∀ p_intf a d, (manageDialog p_intf a d).1 = d ∨
        (manageDialog p_intf a d).1.i_status = .SENT_DIALOG ∨
        (manageDialog p_intf a d).1.i_status = .HIDING_DIALOG) ∧
    (∀ p_intf a d, d.i_status = .SENT_DIALOG ∨ d.i_status = .HIDING_DIALOG →
        manageDialog p_intf a d = (d, [])) := by
  refine ⟨?_, manageDialog_status, manageDialog_at_rest⟩
  by_cases hne : r.pp_dialogs = []
  · have h0 : r.i_dialogs = 0 := by simp [interaction_t.i_dialogs, hne]
    refine ⟨heap, p_playlist, [], ?_, ?_⟩
    · simp only [intf_InteractionManage, hreg, h0, if_true]
    · intro a d hd
      exact ⟨by simp [deliveriesFor], d, hd, Or.inl ⟨rfl, rfl⟩⟩
  · cases hs : (intf_InteractionSearchInterface p_list r).p_intf with
    | none =>
      obtain ⟨pl1, _, hrun, _⟩ := manage_unbound_spec p_list heap p_playlist r hreg hne hs
      refine ⟨heap, pl1, [], hrun, ?_⟩
      intro a d hd
      exact ⟨by simp [deliveriesFor], d, hd, Or.inl ⟨rfl, rfl⟩⟩
    | some p_intf =>
      obtain ⟨heap1, log1, hrun, _, hall⟩ :=
        manage_bound_spec p_list heap p_playlist r p_intf hreg hne hwf hs
      refine ⟨heap1, _, log1, hrun, ?_⟩
      intro a d hd
      obtain ⟨hh, hl⟩ := hall a
      by_cases ha : a ∈ r.pp_dialogs
      · have hl1 : deliveriesFor a log1 = (manageDialog p_intf a d).2 := by
          rw [hl]; simp [ha, tickDeliveries, hd]
        refine ⟨?_, (manageDialog p_intf a d).1, ?_, Or.inr ⟨p_intf, rfl, hl1⟩⟩
        · rw [hl1]; exact manageDialog_snd_length p_intf a d
        · rw [hh]; simp [ha, hd]
      · have hl1 : deliveriesFor a log1 = [] := by
          rw [hl]; simp [ha]
        refine ⟨by rw [hl1]; simp, d, ?_, Or.inl ⟨rfl, hl1⟩⟩
        rw [hh]; simp [ha, hd]

/-- C19, at a queue holding one new dialog twice. -/
theorem C19_one_transition_per_dialog_witness :
    intf_InteractionManage (some [sampleIntf])
        [sampleDialog 2 .INTERACT_FATAL .NEW_DIALOG false] (samplePlaylist [0, 0] 5)
      = some ([sampleDialog 2 .INTERACT_FATAL .SENT_DIALOG false],
              { p_interaction := some { pp_dialogs := [0, 0], p_intf := some sampleIntf,
                                        i_last_id := 5 } },
              [⟨sampleIntf, 0, sampleDialog 2 .INTERACT_FATAL .NEW_DIALOG false⟩]) ∧
    ((∃ heap1 p_playlist1 log,
      intf_InteractionManage (some [sampleIntf])
          [sampleDialog 2 .INTERACT_FATAL .NEW_DIALOG false] (samplePlaylist [0, 0] 5)
        = some (heap1, p_playlist1, log) ∧
      ∀ (a : Nat) (d : interaction_dialog_t),
        [sampleDialog 2 .INTERACT_FATAL .NEW_DIALOG false][a]? = some d →
        (deliveriesFor a log).length ≤ 1 ∧
        ∃ d1 : interaction_dialog_t, heap1[a]? = some d1 ∧
          ((d1 = d ∧ deliveriesFor a log = []) ∨
           (∃ p_intf, d1 = (manageDialog p_intf a d).1 ∧
              deliveriesFor a log = (manageDialog p_intf a d).2))) ∧
    (∀ p_intf a d, (manageDialog p_intf a d).1 = d ∨
        (manageDialog p_intf a d).1.i_status = .SENT_DIALOG ∨
        (manageDialog p_intf a d).1.i_status = .HIDING_DIALOG) ∧
    (∀ p_intf a d, d.i_status = .SENT_DIALOG ∨ d.i_status = .HIDING_DIALOG →
        manageDialog p_intf a d = (d, []))) :=
  ⟨rfl, C19_one_transition_per_dialog (some [sampleIntf])
    [sampleDialog 2 .INTERACT_FATAL .NEW_DIALOG false] (samplePlaylist [0, 0] 5)
    { pp_dialogs := [0, 0], p_intf := none, i_last_id := 5 } rfl (by decide)⟩

/-! ## A second tick -/

theorem search_again (p_list : Option (List intf_thread_t)) (r : interaction_t)
    (bound : Option intf_thread_t) :
    intf_InteractionSearchInterface p_list { r with p_intf := bound }
      = intf_InteractionSearchInterface p_list r := by
  cases p_list <;> rfl

theorem log_nil_of_deliveriesFor (log : List Delivery)
    (h : ∀ a, deliveriesFor a log = []) : log = [] := by
  rw [List.eq_nil_iff_forall_not_mem]
  intro e he
  have hmem : e ∈ deliveriesFor e.p_address log := by
    simp [deliveriesFor, he]
  rw [h e.p_address] at hmem
  cases hmem

/-- C20: on a registry whose queue holds valid pointers, a second
`intf_InteractionManage` call that sees the same interface list, with no other
call in between, returns the heap and the playlist the first call returned, so
the same queue and the same status and action of every dialog, and delivers
nothing. -/
theorem C20_manage_twice (p_list : Option (List intf_thread_t)) (heap : Heap)
    (p_playlist : playlist_t) (r : interaction_t)
    (hreg : p_playlist.p_interaction = some r)
    (hwf : ∀ q ∈ r.pp_dialogs, q < heap.length) :
    ∃ heap1 p_playlist1 log1,
      intf_InteractionManage p_list heap p_playlist = some (heap1, p_playlist1, log1) ∧
      intf_InteractionManage p_list heap1 p_playlist1 = some (heap1, p_playlist1, []) := by
  by_cases hne : r.pp_dialogs = []
  · have h0 : r.i_dialogs = 0 := by simp [interaction_t.i_dialogs, hne]
    have hrun : intf_InteractionManage p_list heap p_playlist
        = some (heap, p_playlist, []) := by
      simp only [intf_InteractionManage, hreg, h0, if_true]
    exact ⟨heap, p_playlist, [], hrun, hrun⟩
  · have hlen0 : ¬ r.i_dialogs = 0 := by
      simpa [interaction_t.i_dialogs] using hne
    cases hs : (intf_InteractionSearchInterface p_list r).p_intf with
    | none =>
      have hq : (intf_InteractionSearchInterface p_list r).i_dialogs = r.i_dialogs := by
        unfold intf_InteractionSearchInterface interaction_t.i_dialogs
        cases p_list <;> rfl
      have hidem : intf_InteractionSearchInterface p_list
          (intf_InteractionSearchInterface p_list r)
          = intf_InteractionSearchInterface p_list r := by
        unfold intf_InteractionSearchInterface
        cases p_list <;> rfl
      refine ⟨heap, { p_playlist with
          p_interaction := some (intf_InteractionSearchInterface p_list r) }, [], ?_, ?_⟩
      · simp only [intf_InteractionManage, hreg, hlen0, if_false, hs]
      · simp only [intf_InteractionManage, hq, hlen0, if_false, hidem, hs]
    | some p_intf =>
      obtain ⟨heap1, log1, hrun, hlen, hall⟩ :=
        manage_bound_spec p_list heap p_playlist r p_intf hreg hne hwf hs
      have hwf1 : ∀ q ∈ r.pp_dialogs, q < heap1.length := by
        intro q hq; rw [hlen]; exact hwf q hq
      have hs1 : (intf_InteractionSearchInterface p_list
          { r with p_intf := some p_intf }).p_intf = some p_intf := by
        rw [search_again]; exact hs
      obtain ⟨heap2, log2, hrun2, _, hall2⟩ :=
        manage_bound_spec p_list heap1
          { p_playlist with p_interaction := some { r with p_intf := some p_intf } }
          { r with p_intf := some p_intf } p_intf rfl hne hwf1 hs1
      have hheap : heap2 = heap1 := by
        apply List.ext_getElem?
        intro a
        rw [(hall2 a).1]
        by_cases ha : a ∈ r.pp_dialogs
        · simp only [ha, if_true]
          rw [(hall a).1]
          simp only [ha, if_true]
          cases heap[a]? with
          | none => rfl
          | some d => simp [manageDialog_again_fst]
        · simp only [ha, if_false]
      have hlog : log2 = [] := by
        apply log_nil_of_deliveriesFor
        intro a
        rw [(hall2 a).2]
        by_cases ha : a ∈ r.pp_dialogs
        · simp only [ha, if_true, tickDeliveries]
          rw [(hall a).1]
          simp only [ha, if_true]
          cases heap[a]? with
          | none => rfl
          | some d => simp [manageDialog_again_snd]
        · simp only [ha, if_false]
      rw [hheap, hlog] at hrun2
      exact ⟨heap1, _, log1, hrun, hrun2⟩

/-- C20, at a queue of a new and an answered dialog. -/
theorem C20_manage_twice_witness :
    intf_InteractionManage (some [sampleIntf])
        [sampleDialog 6 .INTERACT_FATAL .NEW_DIALOG false,
         sampleDialog 7 .INTERACT_WARNING .ANSWERED_DIALOG false] (samplePlaylist [0, 1] 7)
      = some ([sampleDialog 6 .INTERACT_FATAL .SENT_DIALOG false,
               { sampleDialog 7 .INTERACT_WARNING .HIDING_DIALOG false with
                   i_action := .INTERACT_HIDE }],
              { p_interaction := some { pp_dialogs := [0, 1], p_intf := some sampleIntf,
                                        i_last_id := 7 } },
              [⟨sampleIntf, 0, sampleDialog 6 .INTERACT_FATAL .NEW_DIALOG false⟩,
               ⟨sampleIntf, 1,
                 { sampleDialog 7 .INTERACT_WARNING .ANSWERED_DIALOG false with
                     i_action := .INTERACT_HIDE }⟩]) ∧
    ∃ heap1 p_playlist1 log1,
      intf_InteractionManage (some [sampleIntf])
          [sampleDialog 6 .INTERACT_FATAL .NEW_DIALOG false,
           sampleDialog 7 .INTERACT_WARNING .ANSWERED_DIALOG false] (samplePlaylist [0, 1] 7)
        = some (heap1, p_playlist1, log1) ∧
      intf_InteractionManage (some [sampleIntf]) heap1 p_playlist1
        = some (heap1, p_playlist1, []) :=
  ⟨rfl, C20_manage_twice (some [sampleIntf])
    [sampleDialog 6 .INTERACT_FATAL .NEW_DIALOG false,
     sampleDialog 7 .INTERACT_WARNING .ANSWERED_DIALOG false] (samplePlaylist [0, 1] 7)
    { pp_dialogs := [0, 1], p_intf := none, i_last_id := 7 } rfl (by decide)⟩

/-! ## The order of the deliveries -/

theorem manageDialog_snd_address (p_intf : intf_thread_t) (p : Nat) (d : interaction_dialog_t) :
    ∀ e ∈ (manageDialog p_intf p d).2, e.p_address = p := by
  rcases d with ⟨i, t, ti, de, w, r, s, a⟩
  cases s <;> simp [manageDialog]

/-- The loop appends to the log; what it appends is ordered by the first
position of the dialog in the queue, strictly, and concerns queued dialogs
only. -/
theorem manageLoop_order (p_intf : intf_thread_t) :
    ∀ (q : List Nat) (heap : Heap) (log : List Delivery),
      (∀ p ∈ q, p < heap.length) →
      ∃ heap1 extra, manageLoop p_intf q heap log = some (heap1, log ++ extra) ∧
        (extra.map (fun e => q.indexOf e.p_address)).Pairwise (fun x y => x < y) ∧
        ∀ e ∈ extra, e.p_address ∈ q := by
  intro q
  induction q with
  | nil =>
    intro heap log _
    exact ⟨heap, [], by simp [manageLoop], by simp, by simp⟩
  | cons p rest ih =>
    intro heap log hwf
    have hp : p < heap.length := hwf p (List.mem_cons_self _ _)
    have hget : heap[p]? = some heap[p] := List.getElem?_eq_getElem hp
    have hwf1 : ∀ x ∈ rest, x < (heap.set p (manageDialog p_intf p heap[p]).1).length := by
      intro x hx
      rw [List.length_set]
      exact hwf x (List.mem_cons_of_mem _ hx)
    obtain ⟨heap1, extra1, hrun, hpw, hmem⟩ :=
      ih (heap.set p (manageDialog p_intf p heap[p]).1)
        (log ++ (manageDialog p_intf p heap[p]).2) hwf1
    obtain ⟨heap2, log2, hrun2, _, hall⟩ :=
      manageLoop_spec p_intf rest (heap.set p (manageDialog p_intf p heap[p]).1)
        (log ++ (manageDialog p_intf p heap[p]).2) hwf1
    have hnot : ∀ e ∈ extra1, e.p_address ≠ p := by
      intro e he hep
      rw [hrun] at hrun2
      have h2 : log2 = log ++ (manageDialog p_intf p heap[p]).2 ++ extra1 := by
        cases hrun2; rfl
      have hl := (hall p).2
      rw [h2, deliveriesFor_append] at hl
      have htick : (if p ∈ rest then
          tickDeliveries p_intf (heap.set p (manageDialog p_intf p heap[p]).1) p
          else []) = [] := by
        split
        · simp [tickDeliveries, List.getElem?_set_self hp, manageDialog_again_snd]
        · rfl
      rw [htick] at hl
      have hnil : deliveriesFor p extra1 = [] := List.append_cancel_left hl
      have hin : e ∈ deliveriesFor p extra1 := by
        simp [deliveriesFor, he, hep]
      rw [hnil] at hin
      cases hin
    refine ⟨heap1, (manageDialog p_intf p heap[p]).2 ++ extra1, ?_, ?_, ?_⟩
    · simp only [manageLoop, hget]
      rw [hrun, List.append_assoc]
    · rw [List.map_append, List.pairwise_append]
      refine ⟨?_, ?_, ?_⟩
      · have hlen := manageDialog_snd_length p_intf p heap[p]
        match hm : (manageDialog p_intf p heap[p]).2 with
        | [] => simp
        | [e] => simp
        | e1 :: e2 :: tl => rw [hm] at hlen; simp at hlen
      · rw [List.pairwise_map]
        rw [List.pairwise_map] at hpw
        refine hpw.imp_of_mem ?_
        intro a b ha hb hab
        rw [List.indexOf_cons_ne _ (fun e => hnot a ha e.symm),
          List.indexOf_cons_ne _ (fun e => hnot b hb e.symm)]
        exact Nat.succ_lt_succ hab
      · intro x hx y hy
        obtain ⟨e1, he1, rfl⟩ := List.mem_map.mp hx
        obtain ⟨e2, he2, rfl⟩ := List.mem_map.mp hy
        have h1 : e1.p_address = p := manageDialog_snd_address p_intf p heap[p] e1 he1
        show List.indexOf e1.p_address (p :: rest) < List.indexOf e2.p_address (p :: rest)
        rw [h1, List.indexOf_cons_self,
          List.indexOf_cons_ne _ (fun e => hnot e2 he2 e.symm)]
        exact Nat.succ_pos _
    · intro e he
      rcases List.mem_append.mp he with h | h
      · rw [manageDialog_snd_address p_intf p heap[p] e h]
        exact List.mem_cons_self _ _
      · exact List.mem_cons_of_mem _ (hmem e h)

/-- C11: for a registry whose queue holds valid pointers and for which the
resolution of the tick binds an interface, the deliveries of one
`intf_InteractionManage` call come in queue order: along the log the first
queue position of the delivered dialog increases strictly, so a delivered
dialog that precedes another delivered dialog in the queue is delivered
before it, and only queued dialogs are delivered; and `intf_Send` puts a
dialog behind all queued ones, so queue order is submission order. -/
theorem C11_deliveries_in_queue_order (p_list : Option (List intf_thread_t)) (heap : Heap)
    (p_playlist : playlist_t) (r : interaction_t) (p_intf : intf_thread_t)
    (hreg : p_playlist.p_interaction = some r)
    (hwf : ∀ q ∈ r.pp_dialogs, q < heap.length)
    (hbound : (intf_InteractionSearchInterface p_list r).p_intf = some p_intf) :
    (∃ heap1 p_playlist1 log,
      intf_InteractionManage p_list heap p_playlist = some (heap1, p_playlist1, log) ∧
      (log.map (fun e => r.pp_dialogs.indexOf e.p_address)).Pairwise (fun x y => x < y) ∧
      (∀ e ∈ log, e.p_address ∈ r.pp_dialogs) ∧
      (∀ (i j : Nat) (ei ej : Delivery), log[i]? = some ei → log[j]? = some ej →
        r.pp_dialogs.indexOf ei.p_address < r.pp_dialogs.indexOf ej.p_address → i < j)) ∧
    (∀ (r0 : interaction_t) (p : Nat),
      (intf_Send r0 p).1.pp_dialogs = r0.pp_dialogs ++ [p]) := by
  refine ⟨?_, fun r0 p => by simp [intf_Send, interaction_t.i_dialogs, INSERT_ELEM_length]⟩
  have hexplicit : ∀ log : List Delivery,
      (log.map (fun e => r.pp_dialogs.indexOf e.p_address)).Pairwise (fun x y => x < y) →
      ∀ (i j : Nat) (ei ej : Delivery), log[i]? = some ei → log[j]? = some ej →
        r.pp_dialogs.indexOf ei.p_address < r.pp_dialogs.indexOf ej.p_address → i < j := by
    intro log hpw i j ei ej hi hj hlt
    rw [List.pairwise_map, List.pairwise_iff_getElem] at hpw
    obtain ⟨hil, hie⟩ := List.getElem?_eq_some.mp hi
    obtain ⟨hjl, hje⟩ := List.getElem?_eq_some.mp hj
    by_contra hij
    rcases Nat.lt_or_eq_of_le (Nat.le_of_not_lt hij) with h | h
    · have := hpw j i hjl hil h
      rw [hie, hje] at this
      omega
    · subst h
      rw [hie] at hje
      subst hje
      omega
  by_cases hne : r.pp_dialogs = []
  · have h0 : r.i_dialogs = 0 := by simp [interaction_t.i_dialogs, hne]
    refine ⟨heap, p_playlist, [], ?_, by simp, by simp, by simp⟩
    simp only [intf_InteractionManage, hreg, h0, if_true]
  · have hlen0 : ¬ r.i_dialogs = 0 := by
      simpa [interaction_t.i_dialogs] using hne
    have hq : (intf_InteractionSearchInterface p_list r).pp_dialogs = r.pp_dialogs := by
      unfold intf_InteractionSearchInterface
      cases p_list <;> rfl
    obtain ⟨heap1, extra, hrun, hpw, hmem⟩ :=
      manageLoop_order p_intf r.pp_dialogs heap [] hwf
    rw [List.nil_append] at hrun
    refine ⟨heap1,
      { p_playlist with p_interaction := some (intf_InteractionSearchInterface p_list r) },
      extra, ?_, hpw, hmem, hexplicit extra hpw⟩
    simp only [intf_InteractionManage, hreg, hlen0, if_false, hbound, hq, hrun]

/-- C11, at the queue `[1, 0, 1]` of two new dialogs: the dialog at address 1
is delivered first, once, the dialog at address 0 after it. -/
theorem C11_deliveries_in_queue_order_witness :
    intf_InteractionManage (some [sampleIntf])
        [sampleDialog 6 .INTERACT_FATAL .NEW_DIALOG false,
         sampleDialog 7 .INTERACT_WARNING .NEW_DIALOG false] (samplePlaylist [1, 0, 1] 7)
      = some ([sampleDialog 6 .INTERACT_FATAL .SENT_DIALOG false,
               sampleDialog 7 .INTERACT_WARNING .SENT_DIALOG false],
              { p_interaction := some { pp_dialogs := [1, 0, 1], p_intf := some sampleIntf,
                                        i_last_id := 7 } },
              [⟨sampleIntf, 1, sampleDialog 7 .INTERACT_WARNING .NEW_DIALOG false⟩,
               ⟨sampleIntf, 0, sampleDialog 6 .INTERACT_FATAL .NEW_DIALOG false⟩]) ∧
    ((∃ heap1 p_playlist1 log,
      intf_InteractionManage (some [sampleIntf])
          [sampleDialog 6 .INTERACT_FATAL .NEW_DIALOG false,
           sampleDialog 7 .INTERACT_WARNING .NEW_DIALOG false] (samplePlaylist [1, 0, 1] 7)
        = some (heap1, p_playlist1, log) ∧
      (log.map (fun e => [1, 0, 1].indexOf e.p_address)).Pairwise (fun x y => x < y) ∧
      (∀ e ∈ log, e.p_address ∈ [1, 0, 1]) ∧
      (∀ (i j : Nat) (ei ej : Delivery), log[i]? = some ei → log[j]? = some ej →
        [1, 0, 1].indexOf ei.p_address < [1, 0, 1].indexOf ej.p_address → i < j)) ∧
    (∀ (r0 : interaction_t) (p : Nat),
      (intf_Send r0 p).1.pp_dialogs = r0.pp_dialogs ++ [p])) :=
  ⟨rfl, C11_deliveries_in_queue_order (some [sampleIntf])
    [sampleDialog 6 .INTERACT_FATAL .NEW_DIALOG false,
     sampleDialog 7 .INTERACT_WARNING .NEW_DIALOG false] (samplePlaylist [1, 0, 1] 7)
    { pp_dialogs := [1, 0, 1], p_intf := none, i_last_id := 7 } sampleIntf rfl (by decide) rfl⟩

end Interaction
